import Mathlib

/-!
Shallow embedding of the call-status reconciliation engine of the
whocalledme repository: the ElevenLabs webhook handler
(src/app/api/webhooks/elevenlabs/route.ts), the lookup status endpoint
(src/app/api/lookups/[id]/status/route.ts), the ETag helper
(src/lib/cache/status-cache.ts), the client snapshot hashing
(src/components/lookup-form.tsx), the status normalizer
(src/components/call-progress.tsx), the phone-number schema
(src/unnamed/part_009) and the call-attempt persistence operations
(src/unnamed/part_012, src/lib/supabase/lookups.ts).

JavaScript strings are modelled as Lean `String`, numbers as `Int`,
`undefined`/`null` optional values as `Option`, and duck-typed payload
objects as a small JSON value type with association-list objects.
String primitives (`toLowerCase`, `includes`, `trim`) are implemented
over `List Char` so that every definition reduces inside the kernel.
-/

/-- `listIsPrefix needle hay` decides whether `needle` is an initial segment
of `hay` (helper for the JS `String.prototype.includes` model). -/
def listIsPrefix : List Char → List Char → Bool
  | [], _ => true
  | _ :: _, [] => false
  | a :: as, b :: bs => a == b && listIsPrefix as bs

/-- `listContainsSub needle hay` decides whether `needle` occurs contiguously
inside `hay`. -/
def listContainsSub (needle : List Char) : List Char → Bool
  | [] => listIsPrefix needle []
  | c :: cs => listIsPrefix needle (c :: cs) || listContainsSub needle cs

/-- JS `s.includes(sub)`. -/
def strIncludes (s sub : String) : Bool :=
  listContainsSub sub.data s.data

/-- JS `s.toLowerCase()` (the source only lowercases ASCII keywords). -/
def lowerStr (s : String) : String :=
  ⟨s.data.map Char.toLower⟩

/-- JS `s.trim()`: strip whitespace from both ends. -/
def trimStr (s : String) : String :=
  ⟨((s.data.dropWhile Char.isWhitespace).reverse.dropWhile Char.isWhitespace).reverse⟩

/-- JS truthiness of a `string | undefined | null` value: present and nonempty. -/
def isTruthy (o : Option String) : Bool :=
  match o with
  | some s => s ≠ ""
  | none => false

/-- The string carried by an optional value, defaulting to the empty string. -/
def optStr (o : Option String) : String := o.getD ""

/-- Canonical lookup status (src/unnamed/part_012 line 3, `LookupStatus`). -/
inductive LookupStatus
  | pending
  | calling
  | cached
  | notFound
  | failed
deriving DecidableEq, Repr

/-- Embeds `determineLookupStatus` (webhook route.ts lines 497-518): maps the
event name and vendor status string to a canonical lookup status. -/
def determineLookupStatus (event conversationStatus : Option String) :
    Option LookupStatus :=
  let status := conversationStatus.map lowerStr
  let evt := event.map lowerStr
  if isTruthy status &&
      ["completed", "succeeded", "success", "finished", "done"].contains (optStr status) then
    some .cached
  else if isTruthy evt &&
      (strIncludes (optStr evt) "completed" ||
        strIncludes (optStr evt) "post_call_transcription") then
    some .cached
  else if isTruthy status &&
      ["failed", "error", "cancelled", "canceled"].contains (optStr status) then
    some .failed
  else if isTruthy evt &&
      (strIncludes (optStr evt) "failed" || strIncludes (optStr evt) "error") then
    some .failed
  else
    none

/-- Embeds `hasCompletedData` (webhook route.ts line 1123): the payload carries
actual completed data when the extracted transcript is nonempty or a summary
was found. -/
def hasCompletedData (transcript : String) (summary : Option String) : Bool :=
  transcript ≠ "" || summary.isSome

/-- The first condition of `determineLookupStatus`: status is a success keyword. -/
def isSuccessStatus (conversationStatus : Option String) : Bool :=
  let status := conversationStatus.map lowerStr
  isTruthy status &&
    ["completed", "succeeded", "success", "finished", "done"].contains (optStr status)

/-- The second condition of `determineLookupStatus`: event marks completion. -/
def isCompletionEvent (event : Option String) : Bool :=
  let evt := event.map lowerStr
  isTruthy evt &&
    (strIncludes (optStr evt) "completed" ||
      strIncludes (optStr evt) "post_call_transcription")

/-- The third condition of `determineLookupStatus`: status is a failure keyword. -/
def isFailureStatus (conversationStatus : Option String) : Bool :=
  let status := conversationStatus.map lowerStr
  isTruthy status &&
    ["failed", "error", "cancelled", "canceled"].contains (optStr status)

/-- The fourth condition of `determineLookupStatus`: event carries a failure keyword. -/
def isFailureEvent (event : Option String) : Bool :=
  let evt := event.map lowerStr
  isTruthy evt && (strIncludes (optStr evt) "failed" || strIncludes (optStr evt) "error")

example : determineLookupStatus none (some "error") = some .failed := by decide

example : determineLookupStatus (some "post_call_transcription") (some "error") =
    some .cached := by decide

example : hasCompletedData "Goedemiddag, met Jan de Vries" none = true := by decide

/-- C1 (amended): the canonical lookup-status classification is a function of
the event and status strings alone; it yields the failed state exactly when the
status is not a success keyword, the event does not mark completion, and the
status or event carries a failure keyword.  In particular a non-empty
transcript or summary does not prevent the failed classification. -/
theorem C1_failed_classification_characterization (e s : Option String) :
    determineLookupStatus e s = some .failed ↔
      (isSuccessStatus s = false ∧ isCompletionEvent e = false ∧
        (isFailureStatus s || isFailureEvent e) = true) := by
  simp only [determineLookupStatus, isSuccessStatus, isCompletionEvent,
    isFailureStatus, isFailureEvent]
  split
  · rename_i hA
    rw [hA]; simp
  · rename_i hA
    simp only [Bool.not_eq_true] at hA
    split
    · rename_i hB
      rw [hB]; simp
    · rename_i hB
      simp only [Bool.not_eq_true] at hB
      split
      · rename_i hC
        rw [hA, hB, hC]; simp
      · rename_i hC
        simp only [Bool.not_eq_true] at hC
        split
        · rename_i hD
          rw [hA, hB, hC, hD]; simp
        · rename_i hD
          simp only [Bool.not_eq_true] at hD
          rw [hA, hB, hC, hD]; simp

/-- The single-quote character of the byte-string pattern. -/
def quoteChar : Char := Char.ofNat 39

/-- The double-quote character of the byte-string pattern. -/
def dquoteChar : Char := Char.ofNat 34

/-- The character class `['"]` of the byte-string strip pattern. -/
def isQuoteChar (c : Char) : Bool := c == quoteChar || c == dquoteChar

/-- The `^b['"]` alternative of the strip pattern: remove a leading `b'`/`b"`. -/
def stripBytePrefix (d : List Char) : List Char :=
  match d with
  | b :: q :: rest => if b == 'b' && isQuoteChar q then rest else d
  | _ => d

/-- The `['"]$` alternative of the strip pattern: remove one trailing quote
(applied to the characters left over by the prefix match, since the regex
takes non-overlapping matches). -/
def stripQuoteSuffix (d : List Char) : List Char :=
  match d.reverse with
  | q :: rest => if isQuoteChar q then rest.reverse else d
  | [] => d

/-- Embeds the replace step of `normalize`/`formatStatusLabel`
(call-progress.tsx lines 119-123 and 129-137):
`String(value).replace(/^b['"]|['"]$/g, "")` removes a leading `b'`/`b"` and a
trailing quote. -/
def stripByteQuotes (s : String) : String :=
  ⟨stripQuoteSuffix (stripBytePrefix s.data)⟩

/-- Embeds `normalize` (call-progress.tsx lines 119-123): strip the
byte-string quoting, then trim and lowercase; falsy input maps to the empty
string.  (Named `normalizeStatus` because plain `normalize` collides with a
Mathlib root name.) -/
def normalizeStatus (value : Option String) : String :=
  match value with
  | none => ""
  | some v => if v = "" then "" else lowerStr (trimStr (stripByteQuotes v))

example : normalizeStatus (some "b\x27Success\x27") = "success" := by decide
example : normalizeStatus (some "Success") = "success" := by decide
example : normalizeStatus (some "b\x22Done\x22") = "done" := by decide

/-- A string without quote characters is untouched by the byte-string strip. -/
theorem stripByteQuotes_of_no_quotes (s : String)
    (h : ∀ c ∈ s.data, isQuoteChar c = false) :
    stripByteQuotes s = s := by
  have hpre : stripBytePrefix s.data = s.data := by
    unfold stripBytePrefix
    match hd : s.data with
    | [] => rfl
    | [c] => rfl
    | b :: q :: rest =>
      have hq : isQuoteChar q = false := h q (by rw [hd]; simp)
      simp [hq]
  have hsuf : stripQuoteSuffix s.data = s.data := by
    unfold stripQuoteSuffix
    match hr : s.data.reverse with
    | [] => rfl
    | q :: rest =>
      have hmem : q ∈ s.data := by
        have : q ∈ s.data.reverse := by rw [hr]; simp
        simpa using this
      have hq : isQuoteChar q = false := h q hmem
      simp [hq]
  unfold stripByteQuotes
  rw [hpre, hsuf]

/-- C9: the status normalizer round-trips Python byte-string notation: for any
status string free of quote characters (as every well-formed byte-string body
is), normalizing the `b'...'`-wrapped form yields exactly the normalization of
the bare string. -/
theorem C9_bytestring_roundtrip (s : String)
    (h : ∀ c ∈ s.data, isQuoteChar c = false) :
    normalizeStatus (some ("b\x27" ++ s ++ "\x27")) = normalizeStatus (some s) := by
  by_cases hs : s = ""
  · subst hs; rfl
  · have h1 : "b\x27".data = ['b', quoteChar] := rfl
    have h2 : "\x27".data = [quoteChar] := rfl
    have hwdata : ("b\x27" ++ s ++ "\x27").data = 'b' :: quoteChar :: (s.data ++ [quoteChar]) := by
      rw [String.data_append, String.data_append, h1, h2]; simp
    have hwne : ("b\x27" ++ s ++ "\x27") ≠ "" := by
      intro hcon
      have := congrArg String.data hcon
      rw [hwdata] at this
      simp at this
    have hstripw : stripByteQuotes ("b\x27" ++ s ++ "\x27") = s := by
      unfold stripByteQuotes
      rw [hwdata]
      have hp : stripBytePrefix ('b' :: quoteChar :: (s.data ++ [quoteChar])) =
          s.data ++ [quoteChar] := by
        unfold stripBytePrefix
        simp [isQuoteChar]
      rw [hp]
      have hq : stripQuoteSuffix (s.data ++ [quoteChar]) = s.data := by
        unfold stripQuoteSuffix
        simp [isQuoteChar]
      rw [hq]
    simp only [normalizeStatus]
    rw [if_neg hwne, if_neg hs, hstripw, stripByteQuotes_of_no_quotes s h]

/-! ### Signature verifier (webhook route.ts lines 435-495) -/

/-- One byte of an HMAC-SHA256 digest. -/
abbrev DigestByte := Fin 256

/-- The padding character of base64 and the key/value separator of the
signature header. -/
def eqChar : Char := Char.ofNat 61

/-- The part separator of the signature header. -/
def commaChar : Char := Char.ofNat 44

/-- Lowercase hex digit of a value below 16. -/
def hexDigit (n : Nat) : Char :=
  if n < 10 then Char.ofNat (48 + n) else Char.ofNat (87 + n)

/-- The characters of the lowercase hex rendering of a digest. -/
def hexChars : List DigestByte → List Char
  | [] => []
  | b :: rest => hexDigit (b.val / 16) :: hexDigit (b.val % 16) :: hexChars rest

/-- Node `hmac.digest("hex")`: lowercase hexadecimal rendering. -/
def hexEncode (d : List DigestByte) : String := ⟨hexChars d⟩

/-- The base64 alphabet character of a 6-bit value. -/
def base64Char (n : Nat) : Char :=
  if n < 26 then Char.ofNat (65 + n)
  else if n < 52 then Char.ofNat (97 + (n - 26))
  else if n < 62 then Char.ofNat (48 + (n - 52))
  else if n = 62 then Char.ofNat 43
  else Char.ofNat 47

/-- The characters of the padded base64 rendering of digest bytes. -/
def base64Chars : List DigestByte → List Char
  | [] => []
  | [b1] =>
      [base64Char (b1.val / 4), base64Char (b1.val % 4 * 16), eqChar, eqChar]
  | [b1, b2] =>
      [base64Char (b1.val / 4), base64Char (b1.val % 4 * 16 + b2.val / 16),
        base64Char (b2.val % 16 * 4), eqChar]
  | b1 :: b2 :: b3 :: rest =>
      base64Char (b1.val / 4) :: base64Char (b1.val % 4 * 16 + b2.val / 16) ::
        base64Char (b2.val % 16 * 4 + b3.val / 64) :: base64Char (b3.val % 64) ::
        base64Chars rest

/-- Node `Buffer.from(hex, "hex").toString("base64")`: standard padded base64
of the digest bytes. -/
def base64Encode (d : List DigestByte) : String := ⟨base64Chars d⟩

/-- JS `String.prototype.split` with a one-character separator. -/
def splitOnChar (sep : Char) : List Char → List (List Char)
  | [] => [[]]
  | c :: cs =>
    let rest := splitOnChar sep cs
    if c == sep then [] :: rest
    else
      match rest with
      | r :: rs => (c :: r) :: rs
      | [] => [[c]]

/-- Embeds the header parse of `verifyHmacSignature` (route.ts lines 447-453):
split the header on commas, take the first two `=`-separated pieces of each
part as key/value, keep only parts whose key and value are truthy, and let
later occurrences of a key shadow earlier ones. -/
def parseSigHeader (header : String) : List (String × String) :=
  (splitOnChar commaChar header.data).foldl
    (fun acc part =>
      let pieces := splitOnChar eqChar part
      match pieces.head?, (pieces.drop 1).head? with
      | some k, some v =>
          if isTruthy (some ⟨k⟩) && isTruthy (some ⟨v⟩) then
            (trimStr ⟨k⟩, trimStr ⟨v⟩) :: acc
          else acc
      | _, _ => acc)
    []

/-- Reads a key of the parsed header object (shadowing handled by order). -/
def lookupHeaderKey (parts : List (String × String)) (k : String) : Option String :=
  (parts.find? (fun p => p.1 == k)).map (fun p => p.2)

/-- `candidate.replace(/^sha256=/i, "")`: case-insensitive strip of a leading
`sha256=`. -/
def stripSha256Prefix (s : String) : String :=
  if lowerStr ⟨s.data.take 7⟩ = "sha256=" then ⟨s.data.drop 7⟩ else s

/-- `parts.v0 ?? parts.v1 ?? parts.v2` (route.ts line 456): the signature the
header resolves to. -/
def providedSignatureOf (parts : List (String × String)) : Option String :=
  match lookupHeaderKey parts "v0" with
  | some v => some v
  | none =>
    match lookupHeaderKey parts "v1" with
    | some v => some v
    | none => lookupHeaderKey parts "v2"

/-- Embeds `verifyHmacSignature` (webhook route.ts lines 435-495).  The
HMAC-SHA256 primitive of `node:crypto` is passed as the function argument
`hmac` from (secret, message) to digest bytes; header parsing, hex/base64
encoding and candidate comparison follow the source.  A missing or empty
configured secret makes verification a no-op. -/
def verifyHmacSignature (hmac : String → String → List DigestByte)
    (webhookSecret : Option String) (rawBody : String)
    (signatureHeader : Option String) : Bool :=
  match webhookSecret with
  | none => true
  | some secret =>
    if secret = "" then true
    else
      match signatureHeader with
      | none => false
      | some header =>
        let parts := parseSigHeader header
        let timestamp := lookupHeaderKey parts "t"
        let providedSignature := providedSignatureOf parts
        if !isTruthy timestamp || !isTruthy providedSignature then false
        else
          let payloadToSign := optStr timestamp ++ "." ++ rawBody
          let digest := hmac secret payloadToSign
          let expectedHex := hexEncode digest
          let expectedBase64 := base64Encode digest
          let provided := optStr providedSignature
          let candidates := [provided, stripSha256Prefix provided]
          candidates.any (fun candidate =>
            let cleaned := stripSha256Prefix candidate
            lowerStr cleaned == expectedHex || cleaned == expectedBase64 ||
              lowerStr candidate == expectedHex || candidate == expectedBase64)

example :
    verifyHmacSignature (fun _ _ => [⟨171, by norm_num⟩]) (some "s") "body"
      (some ("t=1,v0=" ++ hexEncode [⟨171, by norm_num⟩])) = true := by decide

example :
    verifyHmacSignature (fun _ _ => [⟨171, by norm_num⟩]) (some "s") "body"
      (some "t=1,v0=AB") = true := by decide

example :
    verifyHmacSignature (fun _ _ => [⟨171, by norm_num⟩]) (some "s") "body"
      (some "t=1,v0=ac") = false := by decide

/-- C2 (counterexample): with a configured secret and a concrete digest, (a) a
header whose signature component is exactly the base64 encoding of the digest
is rejected (the `split("=")` of each header part truncates the value at the
padding character), and (b) the single-byte header mutation `v0` -> `v1` of a
valid hex header is still accepted — refuting both the base64-acceptance and
the reject-any-header-mutation halves of the claim. -/
theorem C2_counterexample :
    (verifyHmacSignature (fun _ _ => List.replicate 32 (0 : Fin 256)) (some "secret")
        "body" (some ("t=1,v0=" ++ base64Encode (List.replicate 32 (0 : Fin 256)))) = false) ∧
    (verifyHmacSignature (fun _ _ => List.replicate 32 (0 : Fin 256)) (some "secret")
        "body" (some ("t=1,v0=" ++ hexEncode (List.replicate 32 (0 : Fin 256)))) = true) ∧
    (verifyHmacSignature (fun _ _ => List.replicate 32 (0 : Fin 256)) (some "secret")
        "body" (some ("t=1,v1=" ++ hexEncode (List.replicate 32 (0 : Fin 256)))) = true) := by
  refine ⟨by decide, by decide, by decide⟩

/-- Hex digits are lowercase and are never the base64 padding character. -/
theorem hexDigit_fixed :
    ∀ n : Fin 16, hexDigit n.val ≠ eqChar ∧ Char.toLower (hexDigit n.val) = hexDigit n.val := by
  decide

/-- Every character of a hex rendering is a lowercase non-padding character. -/
theorem hexChars_fixed (d : List DigestByte) :
    ∀ c ∈ hexChars d, c ≠ eqChar ∧ Char.toLower c = c := by
  induction d with
  | nil => intro c hc; cases hc
  | cons b rest ih =>
    intro c hc
    simp only [hexChars, List.mem_cons] at hc
    rcases hc with h | h | h
    · subst h
      exact hexDigit_fixed ⟨b.val / 16, Nat.div_lt_of_lt_mul (by omega)⟩
    · subst h
      exact hexDigit_fixed ⟨b.val % 16, Nat.mod_lt _ (by omega)⟩
    · exact ih c h

/-- Lowercasing a hex rendering is the identity. -/
theorem lowerStr_hexEncode (d : List DigestByte) :
    lowerStr (hexEncode d) = hexEncode d := by
  unfold lowerStr hexEncode
  have h : (hexChars d).map Char.toLower = hexChars d := by
    have h2 : (hexChars d).map Char.toLower = (hexChars d).map id :=
      List.map_congr_left (fun c hc => (hexChars_fixed d c hc).2)
    simpa using h2
  exact congrArg String.mk h

/-- Distinct values below 16 render to distinct hex digits. -/
theorem hexDigit_injective :
    ∀ m n : Fin 16, hexDigit m.val = hexDigit n.val → m = n := by
  decide

/-- The hex rendering is injective on digests. -/
theorem hexChars_injective :
    ∀ d1 d2 : List DigestByte, hexChars d1 = hexChars d2 → d1 = d2 := by
  intro d1
  induction d1 with
  | nil =>
    intro d2 h
    cases d2 with
    | nil => rfl
    | cons b rest => simp [hexChars] at h
  | cons b rest ih =>
    intro d2 h
    cases d2 with
    | nil => simp [hexChars] at h
    | cons b2 rest2 =>
      simp only [hexChars, List.cons.injEq] at h
      obtain ⟨h1, h2, h3⟩ := h
      have hhi : (⟨b.val / 16, Nat.div_lt_of_lt_mul (by omega)⟩ : Fin 16) =
          ⟨b2.val / 16, Nat.div_lt_of_lt_mul (by omega)⟩ :=
        hexDigit_injective _ _ h1
      have hlo : (⟨b.val % 16, Nat.mod_lt _ (by omega)⟩ : Fin 16) =
          ⟨b2.val % 16, Nat.mod_lt _ (by omega)⟩ :=
        hexDigit_injective _ _ h2
      have hb : b = b2 := by
        have e1 : b.val / 16 = b2.val / 16 := congrArg Fin.val hhi
        have e2 : b.val % 16 = b2.val % 16 := congrArg Fin.val hlo
        have : b.val = b2.val := by omega
        exact Fin.ext this
      rw [hb, ih rest2 h3]

/-- The hex rendering is injective as a string. -/
theorem hexEncode_injective (d1 d2 : List DigestByte)
    (h : hexEncode d1 = hexEncode d2) : d1 = d2 :=
  hexChars_injective d1 d2 (congrArg String.data h)

/-- A hex rendering has two characters per digest byte. -/
theorem hexChars_length (d : List DigestByte) :
    (hexChars d).length = 2 * d.length := by
  induction d with
  | nil => rfl
  | cons b rest ih => simp [hexChars, ih]; omega

/-- A nonempty digest renders to a nonempty (truthy) hex string. -/
theorem hexEncode_ne_empty (d : List DigestByte) (h : d ≠ []) :
    hexEncode d ≠ "" := by
  intro hcon
  have hdata : hexChars d = [] := congrArg String.data hcon
  have hl := congrArg List.length hdata
  rw [hexChars_length] at hl
  simp at hl
  exact h hl

/-- A digest byte list and its hex rendering never start with `sha256=`:
the case-insensitive prefix strip leaves the hex string unchanged. -/
theorem stripSha256Prefix_hexEncode (d : List DigestByte) :
    stripSha256Prefix (hexEncode d) = hexEncode d := by
  unfold stripSha256Prefix
  rw [if_neg]
  · intro heq
    have hdata := congrArg String.data heq
    simp only [lowerStr] at hdata
    have hmem : eqChar ∈ (((hexEncode d).data.take 7).map Char.toLower) := by
      rw [hdata]; decide
    obtain ⟨c, hc, hlow⟩ := List.mem_map.mp hmem
    have hcl : c ∈ (hexEncode d).data := List.mem_of_mem_take hc
    have hfix := hexChars_fixed d c hcl
    rw [hfix.2] at hlow
    exact hfix.1 hlow

/-- Lowercasing keeps the character count. -/
theorem lowerStr_data_length (s : String) :
    (lowerStr s).data.length = s.data.length := by
  simp [lowerStr]

/-- The prefix strip either keeps the string or drops its first 7 characters. -/
theorem stripSha256Prefix_cases (s : String) :
    stripSha256Prefix s = s ∨ stripSha256Prefix s = ⟨s.data.drop 7⟩ := by
  unfold stripSha256Prefix
  split
  · exact Or.inr rfl
  · exact Or.inl rfl

/-- A string whose lowercasing is a hex rendering carries no `sha256=` prefix:
the case-insensitive strip leaves it unchanged. -/
theorem stripSha256Prefix_of_lower_hex (s : String) (d : List DigestByte)
    (h : lowerStr s = hexEncode d) : stripSha256Prefix s = s := by
  unfold stripSha256Prefix
  rw [if_neg]
  intro heq
  have hdata := congrArg String.data heq
  simp only [lowerStr] at hdata
  have hmem : eqChar ∈ (s.data.take 7).map Char.toLower := by
    rw [hdata]; decide
  rw [List.map_take] at hmem
  have hmem2 : eqChar ∈ s.data.map Char.toLower := List.mem_of_mem_take hmem
  have hx : s.data.map Char.toLower = hexChars d := by
    have h2 := congrArg String.data h
    simpa [lowerStr, hexEncode] using h2
  rw [hx] at hmem2
  exact (hexChars_fixed d eqChar hmem2).1 rfl

/-- Induction principle following the 3-byte grouping of `base64Chars`. -/
theorem DigestByte.tripleInduction {P : List DigestByte → Prop} (h0 : P [])
    (h1 : ∀ b, P [b]) (h2 : ∀ b c, P [b, c])
    (h3 : ∀ b c e rest, P rest → P (b :: c :: e :: rest)) :
    ∀ d, P d
  | [] => h0
  | [b] => h1 b
  | [b, c] => h2 b c
  | b :: c :: e :: rest =>
      h3 b c e rest (DigestByte.tripleInduction h0 h1 h2 h3 rest)

/-- A base64 rendering has four characters per started 3-byte group. -/
theorem base64Chars_length (d : List DigestByte) :
    (base64Chars d).length = 4 * ((d.length + 2) / 3) := by
  induction d using DigestByte.tripleInduction with
  | h0 => rfl
  | h1 b => simp [base64Chars]
  | h2 b c => simp [base64Chars]
  | h3 b c e rest ih =>
    simp only [base64Chars, List.length_cons, ih, List.length_cons]
    have : (rest.length + 3 + 2) / 3 = (rest.length + 2) / 3 + 1 := by
      have := Nat.add_div_right (rest.length + 2) (show 0 < 3 by norm_num)
      omega
    rw [this]
    ring

/-- For 32-byte digests (SHA-256) the hex and base64 renderings have lengths
64 and 44 and therefore never coincide. -/
theorem hexEncode_ne_base64Encode (d1 d2 : List DigestByte)
    (h1 : d1.length = 32) (h2 : d2.length = 32) :
    hexEncode d1 ≠ base64Encode d2 := by
  intro hcon
  have hdata : hexChars d1 = base64Chars d2 := congrArg String.data hcon
  have hl := congrArg List.length hdata
  rw [hexChars_length, base64Chars_length, h1, h2] at hl
  norm_num at hl

/-- C2 (amended): with a configured secret the verifier accepts any header
whose parsed timestamp is truthy and whose resolved `v0`/`v1`/`v2` signature
equals, after the case-insensitive `sha256=` strip and lowercasing, the
lowercase hex encoding of HMAC-SHA256(secret, "{timestamp}.{body}") — so
uppercase hex variants and `v0`→`v1`/`v2` key renames are accepted — while any
mutation of the body or of the secret that changes the 32-byte digest makes
the same header rejected. -/
theorem C2_verifier_accept_reject
    (hmac : String → String → List DigestByte)
    (secret ts body header sig : String) (hsec : secret ≠ "") (htsne : ts ≠ "")
    (hts : lookupHeaderKey (parseSigHeader header) "t" = some ts)
    (hv : providedSignatureOf (parseSigHeader header) = some sig)
    (hsig : lowerStr (stripSha256Prefix sig) =
      hexEncode (hmac secret (ts ++ "." ++ body)))
    (hlen : (hmac secret (ts ++ "." ++ body)).length = 32) :
    verifyHmacSignature hmac (some secret) body (some header) = true ∧
      ∀ secret2 body2, secret2 ≠ "" →
        (hmac secret2 (ts ++ "." ++ body2)).length = 32 →
        hmac secret2 (ts ++ "." ++ body2) ≠ hmac secret (ts ++ "." ++ body) →
        verifyHmacSignature hmac (some secret2) body2 (some header) = false := by
  set d := hmac secret (ts ++ "." ++ body) with hd
  have hhexlen : (hexEncode d).data.length = 64 := by
    simpa [hexEncode, hlen] using hexChars_length d
  have hstriplen : (stripSha256Prefix sig).data.length = 64 := by
    have h2 := congrArg (fun t : String => t.data.length) hsig
    simpa [lowerStr, hhexlen] using h2
  have hsigne : sig ≠ "" := by
    intro h0
    have hstripnil : stripSha256Prefix "" = "" := by decide
    rw [h0, hstripnil] at hstriplen
    simp at hstriplen
  have hsiglen : sig.data.length = 64 ∨ sig.data.length = 71 := by
    rcases stripSha256Prefix_cases sig with h | h
    · left; rw [h] at hstriplen; exact hstriplen
    · right
      rw [h] at hstriplen
      simp only [List.length_drop] at hstriplen
      omega
  have hstripstrip : stripSha256Prefix (stripSha256Prefix sig) =
      stripSha256Prefix sig := stripSha256Prefix_of_lower_hex _ d hsig
  have h1 : isTruthy (some ts) = true := by simp [isTruthy, htsne]
  have h2 : isTruthy (some sig) = true := by simp [isTruthy, hsigne]
  constructor
  · simp only [verifyHmacSignature]
    rw [if_neg hsec, hts, hv]
    simp only [h1, h2, Bool.not_true, Bool.or_self, Bool.false_or, if_false,
      optStr, Option.getD_some, List.any]
    rw [hsig]
    simp
  · intro secret2 body2 hsec2 hlen2 hne2
    set d2 := hmac secret2 (ts ++ "." ++ body2) with hd2
    have hb64len : (base64Encode d2).data.length = 44 := by
      simpa [base64Encode, hlen2] using base64Chars_length d2
    have hhex2ne : hexEncode d2 ≠ hexEncode d := by
      intro hc
      exact hne2 (hexEncode_injective d2 d hc)
    have kA : (lowerStr (stripSha256Prefix sig) == hexEncode d2) = false := by
      rw [beq_eq_false_iff_ne, hsig]
      exact fun hc => hhex2ne hc.symm
    have kB : (stripSha256Prefix sig == base64Encode d2) = false := by
      rw [beq_eq_false_iff_ne]
      intro hc
      have hl := congrArg (fun t : String => t.data.length) hc
      simp only [hstriplen, hb64len] at hl
      exact absurd hl (by norm_num)
    have kC : (lowerStr sig == hexEncode d2) = false := by
      rw [beq_eq_false_iff_ne]
      intro hc
      have hid : stripSha256Prefix sig = sig := stripSha256Prefix_of_lower_hex sig d2 hc
      have hsig2 : lowerStr sig = hexEncode d := by rw [← hid]; exact hsig
      exact hhex2ne (hc ▸ hsig2 ▸ rfl)
    have kD : (sig == base64Encode d2) = false := by
      rw [beq_eq_false_iff_ne]
      intro hc
      have hl := congrArg (fun t : String => t.data.length) hc
      simp only [hb64len] at hl
      rcases hsiglen with h | h <;> rw [h] at hl <;> exact absurd hl (by norm_num)
    simp only [verifyHmacSignature]
    rw [if_neg hsec2, hts, hv]
    simp only [h1, h2, Bool.not_true, Bool.or_self, Bool.false_or, if_false,
      optStr, Option.getD_some, List.any]
    rw [← hd2, hstripstrip]
    simp [kA, kB, kC, kD]

/-- The byte 171 (0xab), whose hex rendering exercises letter case. -/
def byteAB : DigestByte := ⟨171, by norm_num⟩

/-- An uppercase hex rendering of the 32-byte digest `0xab...ab`. -/
def c2sigUpper : String := ⟨(hexChars (List.replicate 32 byteAB)).map Char.toUpper⟩

/-- A concrete HMAC stand-in distinguishing secret and message used by the C2
witness. -/
def c2hmacDual (secret msg : String) : List DigestByte :=
  if secret = "sec" && msg = "1.b" then List.replicate 32 byteAB
  else List.replicate 32 (1 : Fin 256)

/-- C2 witness: the amended theorem applied at a concrete secret, timestamp
and body — an uppercase `v1` rendering of the digest is accepted, and a body
mutation as well as a secret mutation are rejected. -/
theorem C2_verifier_accept_reject_witness :
    verifyHmacSignature c2hmacDual (some "sec") "b"
        (some ("t=1,v1=" ++ c2sigUpper)) = true ∧
      verifyHmacSignature c2hmacDual (some "sec") "c"
        (some ("t=1,v1=" ++ c2sigUpper)) = false ∧
      verifyHmacSignature c2hmacDual (some "other") "b"
        (some ("t=1,v1=" ++ c2sigUpper)) = false := by
  have h := C2_verifier_accept_reject c2hmacDual "sec" "1" "b"
    ("t=1,v1=" ++ c2sigUpper) c2sigUpper
    (by decide) (by decide) (by decide) (by decide) (by decide) (by decide)
  exact ⟨h.1, h.2 "sec" "c" (by decide) (by decide) (by decide),
    h.2 "other" "b" (by decide) (by decide) (by decide)⟩

/-! ### Identity resolver (webhook route.ts lines 1496-1829) -/

/-- Structured agent output (route.ts `ElevenLabsAgentOutput`, lines 134-138):
the consent/name/organisation triple extracted by `extractAgentOutput`. -/
structure AgentOutput where
  consent : Bool
  name : Option String
  organisation : Option Bool
deriving Repr, DecidableEq

/-- The slice of a stored `PhoneProfileRecord` read by the resolver:
`caller_name` and `tags`. -/
structure ProfileLite where
  caller_name : String
  tags : Option (List String)
deriving Repr, DecidableEq

/-- ASCII letter or digit (the complement of the JS `[\W_]` class used by
`cleanCallerName`, `\W` being `[^A-Za-z0-9_]` so that `[\W_]` is everything
outside `[A-Za-z0-9]`). -/
def isAsciiAlphanum (c : Char) : Bool :=
  (65 ≤ c.toNat && c.toNat ≤ 90) || (97 ≤ c.toNat && c.toNat ≤ 122) ||
    (48 ≤ c.toNat && c.toNat ≤ 57)

/-- `value.replace(/\s+/g, " ")`: collapse every whitespace run to one space. -/
def collapseWs : List Char → List Char
  | [] => []
  | c :: cs =>
    if c.isWhitespace then
      ' ' :: collapseWs (cs.dropWhile Char.isWhitespace)
    else c :: collapseWs cs
termination_by l => l.length
decreasing_by
  · have hsub : (cs.dropWhile Char.isWhitespace).Sublist cs := List.dropWhile_sublist _
    have h := List.Sublist.length_le hsub
    simp only [List.length_cons]
    omega
  · simp only [List.length_cons]
    omega

/-- `replace(/^[\W_]+|[\W_]+$/g, "")`: strip leading and trailing
non-alphanumeric characters. -/
def stripEdgeNonWord (d : List Char) : List Char :=
  ((d.dropWhile (fun c => !isAsciiAlphanum c)).reverse.dropWhile
    (fun c => !isAsciiAlphanum c)).reverse

/-- Embeds `cleanCallerName` (route.ts lines 648-657): collapse whitespace,
strip non-word edges, trim; values shorter than two characters become null. -/
def cleanCallerName (value : Option String) : Option String :=
  match value with
  | none => none
  | some s =>
    let normalized := trimStr ⟨stripEdgeNonWord (collapseWs s.data)⟩
    if normalized.length < 2 then none else some normalized

/-- `BUSINESS_KEYWORDS` (route.ts lines 30-53). -/
def BUSINESS_KEYWORDS : List String :=
  ["bedrijf", "b.v", "bv", "holding", "studio", "agency", "bureau", "shop",
    "winkel", "restaurant", "clinic", "solutions", "consultancy", "services",
    "bv.", "llc", "inc", "gmbh", "groep", "group", "co.", "company"]

/-- Embeds `containsBusinessKeyword` (route.ts lines 129-132). -/
def containsBusinessKeyword (value : String) : Bool :=
  let lower := lowerStr value
  BUSINESS_KEYWORDS.any (fun keyword => strIncludes lower keyword)

/-- The `selectedEntityKind` values of the fallback block ("person" /
"business" / null). -/
inductive EntityKind
  | person
  | business
deriving Repr, DecidableEq

/-- `existingProfileRecord?.tags?.some(tag => ... includes("bedrijf"))`
(route.ts lines 1772-1774). -/
def profileTagsHaveBedrijf (p : Option ProfileLite) : Bool :=
  match p with
  | some pr =>
    match pr.tags with
    | some tags => tags.any (fun tag => strIncludes (lowerStr tag) "bedrijf")
    | none => false
  | none => false

/-- Embeds the heuristic fallback block of the identity resolver (route.ts
lines 1535-1825).  The candidate collection of lines 1538-1731 (transcript
regex extraction, metadata/contact fields, analysis entities, summary regex
matches, stored profile name and aliases) only produces the two candidate
sets read back at lines 1733-1734; those sets enter here as the universally
quantified `personList`/`businessList` arguments, and the
`deriveEntityTag` result of line 1739 enters as `initialEntityTagCandidate`.
The selection logic of lines 1736-1825 is embedded verbatim. -/
def heuristicStage (callerName0 entityTag0 : Option String)
    (personList businessList : List String)
    (initialEntityTagCandidate : Option String)
    (existingProfile : Option ProfileLite) : Option String × Option String :=
  let step1 : Option String × Option EntityKind :=
    if initialEntityTagCandidate = some "Bedrijf" && businessList.length > 0 then
      (businessList.head?, some .business)
    else if initialEntityTagCandidate = some "Particulier" && personList.length > 0 then
      (personList.head?, some .person)
    else (none, none)
  let step2 : Option String × Option EntityKind :=
    if !isTruthy step1.1 && personList.length > 0 then (personList.head?, some .person)
    else step1
  let step3 : Option String × Option EntityKind :=
    if !isTruthy step2.1 && businessList.length > 0 then (businessList.head?, some .business)
    else step2
  let existingCallerName : Option String :=
    match existingProfile with
    | some p =>
      if p.caller_name ≠ "" && p.caller_name ≠ "Onbekende beller" then some p.caller_name
      else none
    | none => none
  let step4 : Option String × Option EntityKind :=
    if !isTruthy step3.1 && isTruthy existingCallerName then
      (existingCallerName,
        some (if profileTagsHaveBedrijf existingProfile then .business else .person))
    else step3
  let callerName1 : Option String :=
    if !isTruthy callerName0 then
      match cleanCallerName step4.1 with
      | some n => some n
      | none =>
        match existingCallerName with
        | some n => some n
        | none => some "Onbekende beller"
    else callerName0
  let kind5 : Option EntityKind :=
    if isTruthy callerName1 && containsBusinessKeyword (optStr callerName1) then some .business
    else step4.2
  let kind6 : Option EntityKind :=
    if kind5 = none && isTruthy callerName1 && optStr callerName1 ≠ "Onbekende beller" then
      some .person
    else kind5
  let entityTag1 : Option String :=
    if !isTruthy entityTag0 then
      match kind6 with
      | some .business => some "Bedrijf"
      | some .person => some "Particulier"
      | none =>
        if isTruthy initialEntityTagCandidate then initialEntityTagCandidate
        else if businessList.length > 0 && personList.length = 0 then some "Bedrijf"
        else if personList.length > 0 && businessList.length = 0 then some "Particulier"
        else entityTag0
    else entityTag0
  (callerName1, entityTag1)

/-- Embeds the caller-name / entity-tag resolution of the webhook post-call
branch (route.ts lines 1496-1829): tier 1 reads the structured agent output
(lines 1505-1533), the heuristic cascade runs only while name or tag is still
falsy (line 1535), and line 1827 applies the final caller-unknown default. -/
def resolveIdentity (agentOutput : Option AgentOutput)
    (personList businessList : List String)
    (initialEntityTagCandidate : Option String)
    (existingProfile : Option ProfileLite) : String × Option String :=
  let tier1 : Option String × Option String :=
    match agentOutput with
    | some ao =>
      if ao.consent && isTruthy ao.name then
        (ao.name,
          match ao.organisation with
          | some true => some "Bedrijf"
          | some false => some "Particulier"
          | none => none)
      else if !ao.consent then (some "Onbekende beller", none)
      else (none, none)
    | none => (none, none)
  let callerName0 := tier1.1
  let entityTag0 := tier1.2
  let resolved :=
    if !isTruthy callerName0 || !isTruthy entityTag0 then
      heuristicStage callerName0 entityTag0 personList businessList
        initialEntityTagCandidate existingProfile
    else (callerName0, entityTag0)
  (if isTruthy resolved.1 then optStr resolved.1 else "Onbekende beller", resolved.2)

/-- C3: whenever the structured agent output carries `consent = false`, the
resolved caller name is the caller-unknown sentinel, for every transcript or
metadata candidate list, every derived entity-tag hint and every stored
profile — no lower tier of the cascade can override the consent denial. -/
theorem C3_consent_denied_forces_unknown_caller (name : Option String)
    (org : Option Bool) (personList businessList : List String)
    (initialTag : Option String) (profile : Option ProfileLite) :
    (resolveIdentity (some ⟨false, name, org⟩) personList businessList
        initialTag profile).1 = "Onbekende beller" := rfl

/-- C4: structured output `{consent: true, name: "Jan", organisation: false}`
resolves to caller name "Jan" with entity tag "Particulier" for every payload
— in particular for any transcript-derived candidate list containing a
different self-introduced name: tier 1 overrides tier 2. -/
theorem C4_tier1_overrides_lower_tiers (personList businessList : List String)
    (initialTag : Option String) (profile : Option ProfileLite) :
    resolveIdentity (some ⟨true, some "Jan", some false⟩) personList businessList
        initialTag profile = ("Jan", some "Particulier") := rfl

/-! ### JSON values, records, and the ETag of the status route -/

/-- JSON values (webhook payloads, call-attempt `payload` columns, client
snapshots).  Object fields are an association list in insertion order, as in
a JS object; numbers are modelled as integers (no claim involves non-integer
arithmetic). -/
inductive Json where
  | null
  | bool (b : Bool)
  | num (n : Int)
  | str (s : String)
  | arr (items : List Json)
  | obj (fields : List (String × Json))

/-- JS property access on an object: first binding of the key. -/
def jlookup (fields : List (String × Json)) (k : String) : Option Json :=
  (fields.find? (fun p => p.1 == k)).map (fun p => p.2)

/-- Association list of a JS object value; any other value (including arrays,
whose string-keyed reads are all undefined) has no readable fields.  Embeds
`toPlainObject` (route.ts lines 541-547). -/
def toPlainObject : Json → List (String × Json)
  | .obj fs => fs
  | _ => []

/-- JS `a ?? b` on possibly-absent object fields: `a` unless it is missing or
null. -/
def jcoalesce (a b : Option Json) : Option Json :=
  match a with
  | some .null => b
  | some v => some v
  | none => b

/-- `typeof x === "string"` projection. -/
def asString : Option Json → Option String
  | some (.str s) => some s
  | _ => none

/-- `typeof x === "number"` projection. -/
def asNum : Option Json → Option Int
  | some (.num n) => some n
  | _ => none

/-- Call attempt row (src/unnamed/part_012 `CallAttemptRecord`, lines 36-49). -/
structure AttemptRec where
  id : String
  lookup_id : String
  status : String
  elevenlabs_conversation_id : Option String
  elevenlabs_status : Option String
  error_message : Option String
  transcript : Option String
  summary : Option String
  confidence : Option Int
  payload : Option Json
  requested_at : String
  updated_at : String

/-- Lookup row (src/unnamed/part_012 `PhoneLookupRecord`, lines 27-34). -/
structure LookupRec where
  id : String
  normalized : String
  raw_input : String
  status : String
  profile_id : Option String
  created_at : String

/-- Embeds `generateETag` (status-cache.ts lines 32-37): quote the timestamp,
falling back to the current clock (`Date.now().toString()`, the `nowMs`
argument) when the argument is falsy. -/
def generateETag (updatedAt : Option String) (nowMs : String) : String :=
  let timestamp := if isTruthy updatedAt then optStr updatedAt else nowMs
  "\"" ++ timestamp ++ "\""

/-- Embeds the ETag input of the status route (status route.ts lines
261-265): the latest call attempt's `updated_at` when an attempt exists,
otherwise the current time (`new Date().toISOString()`, the `nowIso`
argument) via either the cached-status branch or the final fallback. -/
def latestUpdatedAt (rawCallAttempt : Option AttemptRec) (lookupStatus : String)
    (nowIso : String) : String :=
  match rawCallAttempt with
  | some a => a.updated_at
  | none => if lookupStatus = "cached" then nowIso else nowIso

/-- The ETag computed by one status read (status route.ts line 266). -/
def statusReadETag (rawCallAttempt : Option AttemptRec) (lookupStatus : String)
    (nowIso nowMs : String) : String :=
  generateETag (some (latestUpdatedAt rawCallAttempt lookupStatus nowIso)) nowMs

/-- Quoting is injective on strings. -/
theorem quoted_eq_iff (x y : String) :
    ("\"" ++ x ++ "\"" = "\"" ++ y ++ "\"") ↔ x = y := by
  constructor
  · intro h
    have hd := congrArg String.data h
    simp only [String.data_append] at hd
    simp at hd
    exact String.ext hd
  · intro h; rw [h]

/-- A scheduled call attempt used by the C6 theorems. -/
def attemptScheduled : AttemptRec where
  id := "a1"
  lookup_id := "l1"
  status := "scheduled"
  elevenlabs_conversation_id := none
  elevenlabs_status := none
  error_message := none
  transcript := none
  summary := none
  confidence := none
  payload := none
  requested_at := "t0"
  updated_at := "2024-01-01T00:00:00Z"

/-- The same attempt after a post-call update that changed status, transcript
and summary but (hypothetically) not `updated_at`. -/
def attemptEnriched : AttemptRec where
  id := "a1"
  lookup_id := "l1"
  status := "post_call_transcription"
  elevenlabs_conversation_id := none
  elevenlabs_status := none
  error_message := none
  transcript := some "Goedemiddag, met Jan"
  summary := some "Jan belde"
  confidence := none
  payload := none
  requested_at := "t0"
  updated_at := "2024-01-01T00:00:00Z"

/-- C6 (counterexample): the ETag of a status read depends only on the call
attempt's `updated_at`: (a) two reads whose call attempts differ in status,
transcript and summary but share `updated_at` produce the same ETag, refuting
"a read after any field change returns a different ETag"; and (b) when no
call attempt exists, two reads of the identical empty snapshot at different
wall-clock instants produce different ETags, refuting the stability half. -/
theorem C6_counterexample :
    (statusReadETag (some attemptScheduled) "calling" "now1" "ms1" =
      statusReadETag (some attemptEnriched) "cached" "now2" "ms2") ∧
    statusReadETag none "cached" "2024-01-01T00:00:00Z" "ms1" ≠
      statusReadETag none "cached" "2024-01-01T00:00:01Z" "ms1" := by
  exact ⟨rfl, by decide⟩

/-- C6 (amended): when the status read finds a call attempt, the ETag is the
quoted `updated_at` of that attempt: two reads produce identical ETags exactly
when the attempts' `updated_at` values coincide — regardless of any other
field and of the wall clock.  (Without a call attempt the ETag is the quoted
current time and is not stable across reads; see the counterexample.) -/
theorem C6_etag_tracks_updated_at (a b : AttemptRec) (sta stb : String)
    (n1 n2 m1 m2 : String) (ha : a.updated_at ≠ "") (hb : b.updated_at ≠ "") :
    statusReadETag (some a) sta n1 m1 = statusReadETag (some b) stb n2 m2 ↔
      a.updated_at = b.updated_at := by
  unfold statusReadETag latestUpdatedAt generateETag
  have hta : isTruthy (some a.updated_at) = true := by simp [isTruthy, ha]
  have htb : isTruthy (some b.updated_at) = true := by simp [isTruthy, hb]
  rw [hta, htb]
  simp only [if_true, optStr, Option.getD_some]
  exact quoted_eq_iff a.updated_at b.updated_at

/-- An updated call attempt whose `updated_at` matches `attemptScheduled`
after the 2024-02-02 write, used by the C6 witness. -/
def attemptFresh : AttemptRec where
  id := "a2"
  lookup_id := "l1"
  status := "done"
  elevenlabs_conversation_id := none
  elevenlabs_status := none
  error_message := none
  transcript := some "tr"
  summary := none
  confidence := none
  payload := none
  requested_at := "t1"
  updated_at := "2024-02-02T00:00:00Z"

/-- A second write at the same instant as `attemptFresh`. -/
def attemptFresh2 : AttemptRec where
  id := "a3"
  lookup_id := "l1"
  status := "scheduled"
  elevenlabs_conversation_id := none
  elevenlabs_status := none
  error_message := none
  transcript := none
  summary := none
  confidence := none
  payload := none
  requested_at := "t2"
  updated_at := "2024-02-02T00:00:00Z"

/-- C6 witness: the amended theorem applied at two concrete call attempts
sharing an `updated_at`. -/
theorem C6_etag_witness :
    statusReadETag (some attemptFresh) "calling" "nowA" "msA" =
      statusReadETag (some attemptFresh2) "cached" "nowB" "msB" := by
  exact (C6_etag_tracks_updated_at attemptFresh attemptFresh2 "calling" "cached"
    "nowA" "nowB" "msA" "msB" (by decide) (by decide)).mpr rfl

/-! ### Status route retry loop (status route.ts lines 95-176) -/

/-- JS `<` on characters (code units). -/
def charLt (a b : Char) : Bool := a.toNat < b.toNat

/-- JS lexicographic `<` on strings. -/
def listLt : List Char → List Char → Bool
  | [], [] => false
  | [], _ :: _ => true
  | _ :: _, [] => false
  | a :: as, b :: bs => if a == b then listLt as bs else charLt a b

/-- JS `a > b` on strings (used on ISO `updated_at` timestamps). -/
def strGt (a b : String) : Bool := listLt b.data a.data

/-- One round of datastore reads of the retry loop (the `Promise.all` of
status route.ts lines 107-111), indexed by the retry counter. -/
structure LoopFetch where
  attempt : Option AttemptRec
  profileFound : Bool
  freshLookup : Option LookupRec

/-- The mutable request-scoped state of the retry loop. -/
structure LoopState where
  rawCallAttempt : Option AttemptRec
  profileFound : Bool
  lookupStatus : String
  lookupProfileId : Option String
  lastCallAttemptUpdatedAt : Option String
  lastLookupStatus : Option String
  retries : Nat
  sleepMs : Nat

/-- `maxRetries` (status route.ts line 101). -/
def MAX_RETRIES : Nat := 10

/-- Embeds the staleness predicate of one loop iteration (status route.ts
lines 117-133). -/
def shouldRetryIteration (f : LoopFetch) (st : LoopState) : Bool :=
  let lookupStatusChanged :=
    match f.freshLookup with
    | some fl => some fl.status ≠ st.lastLookupStatus
    | none => false
  let callAttemptUpdatedAt : Option String :=
    match f.attempt with
    | some a => some a.updated_at
    | none => none
  let callAttemptGotNewer :=
    isTruthy callAttemptUpdatedAt &&
      (!isTruthy st.lastCallAttemptUpdatedAt ||
        strGt (optStr callAttemptUpdatedAt) (optStr st.lastCallAttemptUpdatedAt))
  let gotStaleData :=
    (match f.freshLookup with
      | some fl => fl.status = "cached"
      | none => false) &&
    (match f.attempt with
      | some a => a.status = "scheduled"
      | none => false)
  let hasNewDataButIncomplete :=
    callAttemptGotNewer &&
      (match f.attempt with
        | some a => a.status = "post_call_transcription"
        | none => false) &&
      (match f.attempt with
        | some a => !isTruthy a.summary || !isTruthy a.transcript
        | none => true)
  lookupStatusChanged || gotStaleData || hasNewDataButIncomplete

/-- `rawCallAttempt?.updated_at ?? null` (status route.ts line 120). -/
def attemptUpdatedAt (f : LoopFetch) : Option String :=
  match f.attempt with
  | some a => some a.updated_at
  | none => none

/-- Embeds the bounded retry loop (status route.ts lines 106-176): while the
retry budget allows, re-fetch; on a staleness signal sleep one second and
retry, otherwise keep the final snapshot and stop. -/
def retryLoopGo (fetch : Nat → LoopFetch) (st : LoopState) : LoopState :=
  if _h : st.retries < MAX_RETRIES then
    if shouldRetryIteration (fetch st.retries) st &&
        decide (st.retries < MAX_RETRIES - 1) then
      retryLoopGo fetch
        { rawCallAttempt := (fetch st.retries).attempt
          profileFound := (fetch st.retries).profileFound
          lookupStatus :=
            match (fetch st.retries).freshLookup with
            | some fl => fl.status
            | none => st.lookupStatus
          lookupProfileId :=
            match (fetch st.retries).freshLookup with
            | some fl => fl.profile_id
            | none => st.lookupProfileId
          lastCallAttemptUpdatedAt := attemptUpdatedAt (fetch st.retries)
          lastLookupStatus :=
            match (fetch st.retries).freshLookup with
            | some fl => some fl.status
            | none => st.lastLookupStatus
          retries := st.retries + 1
          sleepMs := st.sleepMs + 1000 }
    else
      { rawCallAttempt := (fetch st.retries).attempt
        profileFound := (fetch st.retries).profileFound
        lookupStatus :=
          match (fetch st.retries).freshLookup with
          | some fl => fl.status
          | none => st.lookupStatus
        lookupProfileId :=
          match (fetch st.retries).freshLookup with
          | some fl => fl.profile_id
          | none => st.lookupProfileId
        lastCallAttemptUpdatedAt := attemptUpdatedAt (fetch st.retries)
        lastLookupStatus := st.lastLookupStatus
        retries := st.retries
        sleepMs := st.sleepMs }
  else st
termination_by MAX_RETRIES - st.retries
decreasing_by
  omega

/-- A full status-read poll: the fixed 500 ms consistency delay of line 95
followed by the retry loop with fresh counters. -/
def runRetryLoop (fetch : Nat → LoopFetch) (lookup : LookupRec) : LoopState :=
  retryLoopGo fetch
    { rawCallAttempt := none
      profileFound := false
      lookupStatus := lookup.status
      lookupProfileId := lookup.profile_id
      lastCallAttemptUpdatedAt := none
      lastLookupStatus := some lookup.status
      retries := 0
      sleepMs := 500 }

/-- Budget invariant of the retry loop, by strong induction on the remaining
budget. -/
theorem retryLoopGo_spec (fetch : Nat → LoopFetch) :
    ∀ (n : Nat) (st : LoopState), MAX_RETRIES - st.retries = n →
      st.retries ≤ MAX_RETRIES - 1 → st.sleepMs = 500 + 1000 * st.retries →
      (retryLoopGo fetch st).retries ≤ MAX_RETRIES - 1 ∧
        (retryLoopGo fetch st).sleepMs = 500 + 1000 * (retryLoopGo fetch st).retries ∧
        (retryLoopGo fetch st).rawCallAttempt =
          (fetch (retryLoopGo fetch st).retries).attempt := by
  intro n
  induction n using Nat.strong_induction_on with
  | _ n ih =>
    intro st hn hr hs
    have hlt : st.retries < MAX_RETRIES := by
      unfold MAX_RETRIES at hr ⊢; omega
    unfold retryLoopGo
    rw [dif_pos hlt]
    split
    · rename_i hcond
      have hretlt : st.retries < MAX_RETRIES - 1 := by
        have h2 := ((Bool.and_eq_true _ _).mp hcond).2
        exact of_decide_eq_true h2
      refine ih (MAX_RETRIES - (st.retries + 1)) (by omega) _ rfl ?_ ?_
      · show st.retries + 1 ≤ MAX_RETRIES - 1
        unfold MAX_RETRIES at hretlt ⊢; omega
      · show st.sleepMs + 1000 = 500 + 1000 * (st.retries + 1)
        omega
    · refine ⟨?_, ?_, ?_⟩
      · show st.retries ≤ MAX_RETRIES - 1
        exact hr
      · show st.sleepMs = 500 + 1000 * st.retries
        exact hs
      · rfl

/-- C7: for every fetch behaviour — including one whose staleness predicates
never clear — the status read's retry loop stays within its budget: at most
`maxRetries` retries are performed (in fact at most nine), the total sleep is
the fixed 500 ms initial delay plus one second per retry and never exceeds
ten seconds, and the loop ends by returning the snapshot of its final fetch
round (best-effort data rather than an error). -/
theorem C7_retry_budget_bounded (fetch : Nat → LoopFetch) (lookup : LookupRec) :
    (runRetryLoop fetch lookup).retries ≤ MAX_RETRIES - 1 ∧
      (runRetryLoop fetch lookup).sleepMs =
        500 + 1000 * (runRetryLoop fetch lookup).retries ∧
      (runRetryLoop fetch lookup).sleepMs ≤ 10000 ∧
      (runRetryLoop fetch lookup).rawCallAttempt =
        (fetch (runRetryLoop fetch lookup).retries).attempt := by
  have h := retryLoopGo_spec fetch MAX_RETRIES
    { rawCallAttempt := none
      profileFound := false
      lookupStatus := lookup.status
      lookupProfileId := lookup.profile_id
      lastCallAttemptUpdatedAt := none
      lastLookupStatus := some lookup.status
      retries := 0
      sleepMs := 500 }
    rfl (by show (0 : Nat) ≤ MAX_RETRIES - 1; unfold MAX_RETRIES; omega)
    (by show (500 : Nat) = 500 + 1000 * 0; omega)
  unfold runRetryLoop
  refine ⟨h.1, h.2.1, ?_, h.2.2⟩
  have h1 := h.1
  have h2 := h.2.1
  unfold MAX_RETRIES at h1
  omega

/-! ### Client snapshot hashing (lookup-form.tsx lines 131-165) -/

/-- The backslash character. -/
def backslashChar : Char := Char.ofNat 92

/-- `JSON.stringify` escaping of one string character (backslash and quote;
the escaping is applied identically on both sides of every hash comparison,
so the invariance results do not depend on the remaining escape classes). -/
def jsonEscapeChar (c : Char) : List Char :=
  if c == backslashChar then [backslashChar, backslashChar]
  else if c == dquoteChar then [backslashChar, dquoteChar]
  else [c]

/-- `JSON.stringify` of a string value. -/
def jsonQuote (s : String) : String :=
  "\"" ++ ⟨(s.data.map jsonEscapeChar).flatten⟩ ++ "\""

/-- JS `Array.prototype.join(",")`. -/
def joinComma (parts : List String) : String :=
  match parts with
  | [] => ""
  | p :: ps => ps.foldl (fun acc q => acc ++ "," ++ q) p

/-- The key order of `Object.keys(value).sort()` applied to the field list:
pairs ordered by key with the default JS code-unit string ordering.  With the
unique keys every JS object has, sorting the pairs and mapping `value[key]`
over the sorted key array coincide. -/
def sortFields (fields : List (String × Json)) : List (String × Json) :=
  List.insertionSort (fun p q => p.1 ≤ q.1) fields

/-- Embeds `stableStringify` (lookup-form.tsx lines 131-145): null for
nullish values, `JSON.stringify` for primitives, elementwise rendering for
arrays, and sorted-key rendering (`"${key}":...`) for objects. -/
def stableStringify : Json → String
  | .null => "null"
  | .bool b => if b then "true" else "false"
  | .num n => toString n
  | .str s => jsonQuote s
  | .arr items =>
    "[" ++ joinComma (items.attach.map (fun x => stableStringify x.1)) ++ "]"
  | .obj fields =>
    "\x7b" ++
      joinComma ((sortFields fields).attach.map
        (fun x => "\"" ++ x.1.1 ++ "\":" ++ stableStringify x.1.2)) ++ "\x7d"
termination_by j => sizeOf j
decreasing_by
  · have h := List.sizeOf_lt_of_mem x.2
    simp only [Json.arr.sizeOf_spec]
    omega
  · have hmem : x.1 ∈ List.insertionSort (fun p q => p.1 ≤ q.1) fields := x.2
    have hmem2 : x.1 ∈ fields :=
      (List.perm_insertionSort _ fields).mem_iff.mp hmem
    have h := List.sizeOf_lt_of_mem hmem2
    have h2 : sizeOf x.1.2 < sizeOf x.1 := by
      obtain ⟨k, v⟩ := x.1
      simp
    simp only [Json.obj.sizeOf_spec]
    omega

/-- The client call-attempt snapshot (lookup-form.tsx `ApiCallAttempt` /
`CallAttemptSnapshot` fields read by `computeDataHash`). -/
structure Snapshot where
  status : Option String
  elevenlabs_status : Option String
  error_message : Option String
  summary : Option String
  transcript : Option String
  confidence : Option Int
  updated_at : Option String
  payload : Option Json

/-- `field ?? null` of a string-valued snapshot field. -/
def jfieldStr : Option String → Json
  | some s => .str s
  | none => .null

/-- `field ?? null` of the numeric confidence field. -/
def jfieldNum : Option Int → Json
  | some n => .num n
  | none => .null

/-- `snapshot.payload ?? null`. -/
def jfieldPayload : Option Json → Json
  | some p => p
  | none => .null

/-- Embeds `computeDataHash` (lookup-form.tsx lines 150-165): serialize the
relevant fields (in the source's literal order) with `stableStringify`; a
null snapshot hashes to "null". -/
def computeDataHash (snapshot : Option Snapshot) : String :=
  match snapshot with
  | none => "null"
  | some s =>
    stableStringify (.obj
      [("status", jfieldStr s.status),
        ("elevenlabs_status", jfieldStr s.elevenlabs_status),
        ("error_message", jfieldStr s.error_message),
        ("summary", jfieldStr s.summary),
        ("transcript", jfieldStr s.transcript),
        ("confidence", jfieldNum s.confidence),
        ("updated_at", jfieldStr s.updated_at),
        ("payload", jfieldPayload s.payload)])

/-- Embeds `areSnapshotsEqual` (lookup-form.tsx lines 170-172): the poller
triggers a state update only when this hash comparison fails. -/
def areSnapshotsEqual (a b : Option Snapshot) : Bool :=
  computeDataHash a == computeDataHash b

/-- Keys of an object field list. -/
def fieldKeys (fields : List (String × Json)) : List String :=
  fields.map (fun p => p.1)

mutual
/-- "Equal up to object key ordering" (mutually with its list forms):
identical leaves, elementwise equivalent arrays, and objects whose field
lists are permutations carrying equivalent values — restricted to the
duplicate-free keys every JS object has. -/
inductive KeyPermEquiv : Json → Json → Prop
  | null : KeyPermEquiv .null .null
  | bool (b : Bool) : KeyPermEquiv (.bool b) (.bool b)
  | num (n : Int) : KeyPermEquiv (.num n) (.num n)
  | str (s : String) : KeyPermEquiv (.str s) (.str s)
  | arr {xs ys : List Json} (h : ItemsEquiv xs ys) :
      KeyPermEquiv (.arr xs) (.arr ys)
  | obj {fs fs2 gs : List (String × Json)}
      (hfs : (fieldKeys fs).Nodup) (hgs : (fieldKeys gs).Nodup)
      (hperm : List.Perm fs fs2) (hpt : FieldsEquiv fs2 gs) :
      KeyPermEquiv (.obj fs) (.obj gs)

/-- Elementwise `KeyPermEquiv` on arrays. -/
inductive ItemsEquiv : List Json → List Json → Prop
  | nil : ItemsEquiv [] []
  | cons {x y : Json} {xs ys : List Json} (h : KeyPermEquiv x y)
      (t : ItemsEquiv xs ys) : ItemsEquiv (x :: xs) (y :: ys)

/-- Pointwise equivalence of field lists: same keys in the same order,
equivalent values. -/
inductive FieldsEquiv : List (String × Json) → List (String × Json) → Prop
  | nil : FieldsEquiv [] []
  | cons {k : String} {v w : Json} {fs gs : List (String × Json)}
      (h : KeyPermEquiv v w) (t : FieldsEquiv fs gs) :
      FieldsEquiv ((k, v) :: fs) ((k, w) :: gs)
end

/-- Rendering of an already-sorted field list. -/
def renderFields (l : List (String × Json)) : List String :=
  l.map (fun p => "\"" ++ p.1 ++ "\":" ++ stableStringify p.2)

/-- Unfolding of the object case of `stableStringify` without `attach`. -/
theorem stableStringify_obj (fields : List (String × Json)) :
    stableStringify (.obj fields) =
      "\x7b" ++ joinComma (renderFields (sortFields fields)) ++ "\x7d" := by
  rw [stableStringify, renderFields]
  simp [List.attach_map_coe, List.map_attach, List.attach_map_val]

/-- Unfolding of the array case of `stableStringify` without `attach`. -/
theorem stableStringify_arr (items : List Json) :
    stableStringify (.arr items) =
      "[" ++ joinComma (items.map stableStringify) ++ "]" := by
  rw [stableStringify]
  simp [List.attach_map_coe, List.map_attach, List.attach_map_val]

instance : IsTotal (String × Json) (fun p q => p.1 ≤ q.1) :=
  ⟨fun a b => le_total a.1 b.1⟩

instance : IsTrans (String × Json) (fun p q => p.1 ≤ q.1) :=
  ⟨fun _ _ _ hab hbc => le_trans hab hbc⟩

/-- Sorting permutes the field list. -/
theorem sortFields_perm (fields : List (String × Json)) :
    List.Perm (sortFields fields) fields :=
  List.perm_insertionSort _ fields

/-- The sorted field list is key-sorted. -/
theorem sortFields_sorted (fields : List (String × Json)) :
    List.Sorted (fun p q : String × Json => p.1 ≤ q.1) (sortFields fields) :=
  List.sorted_insertionSort _ fields

/-- Two key-sorted field lists with the same members and duplicate-free keys
coincide. -/
theorem sorted_nodupKeys_eq : ∀ {l1 l2 : List (String × Json)}, List.Perm l1 l2 →
    List.Sorted (fun p q : String × Json => p.1 ≤ q.1) l1 →
    List.Sorted (fun p q : String × Json => p.1 ≤ q.1) l2 →
    (fieldKeys l1).Nodup → l1 = l2 := by
  intro l1
  induction l1 with
  | nil =>
    intro l2 hp _ _ _
    exact (hp.symm.eq_nil).symm
  | cons a t1 ih =>
    intro l2 hp hs1 hs2 hnd
    cases l2 with
    | nil => exact hp.eq_nil
    | cons b t2 =>
      by_cases hab : a = b
      · subst hab
        have hp2 : List.Perm t1 t2 := hp.cons_inv
        have hnd2 : (fieldKeys t1).Nodup := by
          have : fieldKeys (a :: t1) = a.1 :: fieldKeys t1 := rfl
          rw [this] at hnd
          exact (List.nodup_cons.mp hnd).2
        rw [ih hp2 hs1.of_cons hs2.of_cons hnd2]
      · exfalso
        have ha2 : a ∈ b :: t2 := hp.subset (List.mem_cons_self _ _)
        have hb1 : b ∈ a :: t1 := hp.symm.subset (List.mem_cons_self _ _)
        have hat2 : a ∈ t2 := by
          cases List.mem_cons.mp ha2 with
          | inl h => exact absurd h hab
          | inr h => exact h
        have hbt1 : b ∈ t1 := by
          cases List.mem_cons.mp hb1 with
          | inl h => exact absurd h.symm hab
          | inr h => exact h
        have hle1 : a.1 ≤ b.1 := List.rel_of_sorted_cons hs1 b hbt1
        have hle2 : b.1 ≤ a.1 := List.rel_of_sorted_cons hs2 a hat2
        have hkey : a.1 = b.1 := le_antisymm hle1 hle2
        have hmem : a.1 ∈ fieldKeys t1 := by
          have : b.1 ∈ fieldKeys t1 := List.mem_map_of_mem _ hbt1
          rw [← hkey] at this
          exact this
        have : fieldKeys (a :: t1) = a.1 :: fieldKeys t1 := rfl
        rw [this] at hnd
        exact (List.nodup_cons.mp hnd).1 hmem

/-- With duplicate-free keys, sorting is invariant under permutation of the
field list. -/
theorem sortFields_perm_eq {fs fs2 : List (String × Json)} (hperm : List.Perm fs fs2)
    (hnd : (fieldKeys fs).Nodup) : sortFields fs = sortFields fs2 := by
  refine sorted_nodupKeys_eq
    ((sortFields_perm fs).trans (hperm.trans (sortFields_perm fs2).symm))
    (sortFields_sorted fs) (sortFields_sorted fs2) ?_
  have hpk : List.Perm (fieldKeys (sortFields fs)) (fieldKeys fs) := by
    simpa [fieldKeys] using (sortFields_perm fs).map (fun p : String × Json => p.1)
  exact hpk.nodup_iff.mpr hnd

/-- Pointwise field equivalence is preserved by ordered insertion of a pair
sharing its key with its partner: the comparisons only inspect keys. -/
theorem FieldsEquiv.orderedInsertEquiv {k : String} {v w : Json} :
    ∀ {fs gs : List (String × Json)}, KeyPermEquiv v w → FieldsEquiv fs gs →
      FieldsEquiv (List.orderedInsert (fun p q => p.1 ≤ q.1) (k, v) fs)
        (List.orderedInsert (fun p q => p.1 ≤ q.1) (k, w) gs) := by
  intro fs
  induction fs with
  | nil =>
    intro gs hvw h
    cases h
    exact .cons hvw .nil
  | cons p fs2 ih =>
    intro gs hvw h
    obtain ⟨k2, v2⟩ := p
    cases h with
    | cons hh tt =>
      rename_i w2 gs2
      simp only [List.orderedInsert]
      by_cases hle : k ≤ k2
      · rw [if_pos hle, if_pos hle]
        exact .cons hvw (.cons hh tt)
      · rw [if_neg hle, if_neg hle]
        exact .cons hh (ih hvw tt)

/-- Pointwise field equivalence is preserved by the key sort. -/
theorem FieldsEquiv.sortFieldsEquiv :
    ∀ {fs gs : List (String × Json)}, FieldsEquiv fs gs →
      FieldsEquiv (sortFields fs) (sortFields gs) := by
  intro fs
  induction fs with
  | nil =>
    intro gs h
    cases h
    exact .nil
  | cons p fs2 ih =>
    intro gs h
    obtain ⟨k2, v2⟩ := p
    cases h with
    | cons hh tt =>
      simp only [sortFields, List.insertionSort]
      exact FieldsEquiv.orderedInsertEquiv hh (ih tt)

/-- Rendering respects pointwise field equivalence, given stringify-equality
of each value pair. -/
theorem renderFields_eq_of_equiv :
    ∀ {fs gs : List (String × Json)}, FieldsEquiv fs gs →
      (∀ p ∈ fs, ∀ w : Json, KeyPermEquiv p.2 w →
        stableStringify p.2 = stableStringify w) →
      renderFields fs = renderFields gs := by
  intro fs
  induction fs with
  | nil =>
    intro gs h _
    cases h
    rfl
  | cons p fs2 ih =>
    intro gs h hrec
    obtain ⟨k2, v2⟩ := p
    cases h with
    | cons hh tt =>
      rename_i w2 gs2
      simp only [renderFields, List.map_cons]
      rw [hrec (k2, v2) (List.mem_cons_self _ _) w2 hh]
      have := ih tt (fun p hp w3 hw3 => hrec p (List.mem_cons_of_mem _ hp) w3 hw3)
      simp only [renderFields] at this
      rw [this]

/-- Elementwise stringify-equality of arrays, given stringify-equality of the
element pairs. -/
theorem itemsEquiv_map_eq :
    ∀ {xs ys : List Json}, ItemsEquiv xs ys →
      (∀ x ∈ xs, ∀ y : Json, KeyPermEquiv x y →
        stableStringify x = stableStringify y) →
      xs.map stableStringify = ys.map stableStringify := by
  intro xs
  induction xs with
  | nil =>
    intro ys h _
    cases h
    rfl
  | cons x xs2 ih =>
    intro ys h hrec
    cases h with
    | cons hh tt =>
      rename_i y ys2
      simp only [List.map_cons]
      rw [hrec x (List.mem_cons_self _ _) y hh,
        ih tt (fun x2 hx2 y2 hy2 => hrec x2 (List.mem_cons_of_mem _ hx2) y2 hy2)]

/-- C8 core: stable stringification is invariant under object key
reordering. -/
theorem stableStringify_keyPermEquiv (a b : Json) (h : KeyPermEquiv a b) :
    stableStringify a = stableStringify b := by
  match a, b, h with
  | _, _, .null => rfl
  | _, _, .bool b2 => rfl
  | _, _, .num n => rfl
  | _, _, .str s => rfl
  | .arr xs, .arr ys, .arr hitems =>
    rw [stableStringify_arr, stableStringify_arr]
    have hmap := itemsEquiv_map_eq hitems
      (fun x hx y hxy => stableStringify_keyPermEquiv x y hxy)
    rw [hmap]
  | _, _, @KeyPermEquiv.obj fs fs2 gs hfs hgs hperm hpt =>
    rw [stableStringify_obj, stableStringify_obj]
    rw [sortFields_perm_eq hperm hfs]
    have hse := FieldsEquiv.sortFieldsEquiv hpt
    have hrender := renderFields_eq_of_equiv hse
      (fun p hp w hw => stableStringify_keyPermEquiv p.2 w hw)
    rw [hrender]
termination_by sizeOf a
decreasing_by
  · have h1 := List.sizeOf_lt_of_mem hx
    simp only [Json.arr.sizeOf_spec]
    omega
  · have hp2 : p ∈ fs2 := (List.perm_insertionSort _ fs2).mem_iff.mp hp
    have hp3 : p ∈ fs := hperm.mem_iff.mpr hp2
    have h1 := List.sizeOf_lt_of_mem hp3
    have h2 : sizeOf p.2 < sizeOf p := by
      obtain ⟨k, v⟩ := p
      simp
    simp only [Json.obj.sizeOf_spec]
    omega

/-- String-valued snapshot fields are self-equivalent. -/
theorem keyPermEquiv_jfieldStr (o : Option String) :
    KeyPermEquiv (jfieldStr o) (jfieldStr o) := by
  cases o with
  | none => exact .null
  | some s => exact .str s

/-- The confidence field is self-equivalent. -/
theorem keyPermEquiv_jfieldNum (o : Option Int) :
    KeyPermEquiv (jfieldNum o) (jfieldNum o) := by
  cases o with
  | none => exact .null
  | some n => exact .num n

/-- C8: the client's snapshot content hash is invariant under object key
ordering: two snapshots whose semantically relevant fields agree up to
reordering of (duplicate-free) object keys in the nested payload hash
identically, so the poller's `areSnapshotsEqual` comparison reports no change
for a re-delivered identical snapshot. -/
theorem C8_hash_invariant_under_key_order (s1 s2 : Snapshot)
    (hstatus : s1.status = s2.status)
    (hels : s1.elevenlabs_status = s2.elevenlabs_status)
    (herr : s1.error_message = s2.error_message)
    (hsum : s1.summary = s2.summary)
    (htr : s1.transcript = s2.transcript)
    (hconf : s1.confidence = s2.confidence)
    (hupd : s1.updated_at = s2.updated_at)
    (hpay : KeyPermEquiv (jfieldPayload s1.payload) (jfieldPayload s2.payload)) :
    computeDataHash (some s1) = computeDataHash (some s2) ∧
      areSnapshotsEqual (some s1) (some s2) = true := by
  have hmain : computeDataHash (some s1) = computeDataHash (some s2) := by
    simp only [computeDataHash]
    apply stableStringify_keyPermEquiv
    rw [hstatus, hels, herr, hsum, htr, hconf, hupd]
    refine KeyPermEquiv.obj ?_ ?_ (List.Perm.refl _) ?_
    · simp [fieldKeys]
    · simp [fieldKeys]
    · exact .cons (keyPermEquiv_jfieldStr _) (.cons (keyPermEquiv_jfieldStr _)
        (.cons (keyPermEquiv_jfieldStr _) (.cons (keyPermEquiv_jfieldStr _)
        (.cons (keyPermEquiv_jfieldStr _) (.cons (keyPermEquiv_jfieldNum _)
        (.cons (keyPermEquiv_jfieldStr _) (.cons hpay .nil)))))))
  exact ⟨hmain, by simp [areSnapshotsEqual, hmain]⟩

/-- A snapshot whose payload lists `event` before `status`. -/
def snapshotAB : Snapshot where
  status := some "post_call_transcription"
  elevenlabs_status := some "done"
  error_message := none
  summary := some "Jan belde"
  transcript := some "Goedemiddag, met Jan"
  confidence := some 1
  updated_at := some "2024-01-01T00:00:00Z"
  payload := some (.obj
    [("event", .str "post_call_transcription"), ("status", .str "done")])

/-- The same snapshot re-delivered with the payload keys in the other order. -/
def snapshotBA : Snapshot where
  status := some "post_call_transcription"
  elevenlabs_status := some "done"
  error_message := none
  summary := some "Jan belde"
  transcript := some "Goedemiddag, met Jan"
  confidence := some 1
  updated_at := some "2024-01-01T00:00:00Z"
  payload := some (.obj
    [("status", .str "done"), ("event", .str "post_call_transcription")])

/-- C8 witness: the theorem applied at two concrete snapshots whose payload
objects differ only in key order. -/
theorem C8_hash_witness :
    computeDataHash (some snapshotAB) = computeDataHash (some snapshotBA) ∧
      areSnapshotsEqual (some snapshotAB) (some snapshotBA) = true := by
  refine C8_hash_invariant_under_key_order snapshotAB snapshotBA rfl rfl rfl rfl
    rfl rfl rfl ?_
  refine KeyPermEquiv.obj (by simp [fieldKeys]) (by simp [fieldKeys])
    (List.Perm.swap _ _ []) ?_
  exact .cons (.str _) (.cons (.str _) .nil)

/-- C9 witness: the round trip applied at the spec's own example. -/
theorem C9_bytestring_witness :
    normalizeStatus (some ("b\x27" ++ "Success" ++ "\x27")) =
        normalizeStatus (some "Success") ∧
      normalizeStatus (some "Success") = "success" :=
  ⟨C9_bytestring_roundtrip "Success" (by decide), by decide⟩

/-! ### Phone-number schema (src/unnamed/part_009) -/

/-- The sanitize class `[\s\-().]`. -/
def isSanitizeChar (c : Char) : Bool :=
  c.isWhitespace || c == Char.ofNat 45 || c == Char.ofNat 40 ||
    c == Char.ofNat 41 || c == Char.ofNat 46

/-- ASCII digit. -/
def isDigitChar (c : Char) : Bool := 48 ≤ c.toNat && c.toNat ≤ 57

/-- `\d{6,15}$` tail of both phone patterns. -/
def digitRun (l : List Char) : Bool :=
  6 ≤ l.length && l.length ≤ 15 && l.all isDigitChar

/-- `^(\+|00)\d{6,15}$`. -/
def matchesInternational (d : List Char) : Bool :=
  match d with
  | [] => false
  | c :: rest =>
    if c == Char.ofNat 43 then digitRun rest
    else
      match d with
      | a :: b :: rest2 => a == '0' && b == '0' && digitRun rest2
      | _ => false

/-- `^0\d{6,15}$`. -/
def matchesNational (d : List Char) : Bool :=
  match d with
  | c :: rest => c == '0' && digitRun rest
  | [] => false

/-- Embeds `phoneNumberSchema` / `parsePhoneNumber` (src/unnamed/part_009):
trim, 6-20 length bounds, strip `[\s\-().]`, accept international or national
patterns, rewrite a leading `00` to `+`; `none` models the thrown ZodError. -/
def parsePhoneNumber (input : String) : Option String :=
  let trimmed := trimStr input
  if trimmed.length < 6 || trimmed.length > 20 then none
  else
    let value : List Char := trimmed.data.filter (fun c => !isSanitizeChar c)
    if matchesInternational value || matchesNational value then
      match value with
      | a :: b :: rest =>
        if a == '0' && b == '0' then some ("+" ++ (⟨rest⟩ : String))
        else some ⟨value⟩
      | _ => some ⟨value⟩
    else none

example : parsePhoneNumber "+31612345678" = some "+31612345678" := by decide
example : parsePhoneNumber "0031 6 12 34 56 78" = some "+31612345678" := by decide
example : parsePhoneNumber "hello" = none := by decide

/-! ### Webhook payload extraction (webhook route.ts lines 941-1120) -/

/-- JS `Array.prototype.join(sep)`. -/
def joinSep (sep : String) (parts : List String) : String :=
  match parts with
  | [] => ""
  | p :: ps => ps.foldl (fun acc q => acc ++ sep ++ q) p

/-- Object update `obj[k] = v` (replace the binding or append it). -/
def setField (obj : List (String × Json)) (k : String) (v : Json) :
    List (String × Json) :=
  if obj.any (fun p => p.1 == k) then
    obj.map (fun p => if p.1 == k then (k, v) else p)
  else obj ++ [(k, v)]

/-- `toPlainObject` of a possibly missing field value. -/
def toPlainObjectOpt (o : Option Json) : List (String × Json) :=
  match o with
  | some v => toPlainObject v
  | none => []

/-- First string among candidate fields (a `typeof x === "string" ? x : ...`
chain). -/
def firstString (candidates : List (Option Json)) : Option String :=
  match candidates with
  | [] => none
  | c :: rest =>
    match asString c with
    | some s => some s
    | none => firstString rest

/-- A transcript entry (route.ts `TranscriptMessage`, lines 594-598). -/
structure TranscriptMessage where
  role : Option String
  message : String
  timestamp : Option Int

/-- Embeds `toTranscriptMessages` (route.ts lines 600-646). -/
def toTranscriptMessages (entries : List Json) : List TranscriptMessage :=
  entries.filterMap (fun entry =>
    let object := toPlainObject entry
    let message := firstString [jlookup object "message", jlookup object "text",
      jlookup object "content"]
    match message with
    | none => none
    | some msg =>
      let role := firstString [jlookup object "role", jlookup object "speaker",
        jlookup object "participant"]
      let timestamp :=
        match asNum (jlookup object "timestamp") with
        | some n => some n
        | none =>
          match asNum (jlookup object "start") with
          | some n => some n
          | none =>
            match asNum (jlookup object "offset") with
            | some n => some n
            | none => asNum (jlookup object "time")
      some { role := role, message := msg, timestamp := timestamp })

/-- Embeds `extractTranscript` (route.ts lines 549-592). -/
def extractTranscript (conversation : List (String × Json)) : Option String :=
  match asString (jlookup conversation "transcript") with
  | some s => some s
  | none =>
    match jlookup conversation "messages" with
    | some (.arr messages) =>
      let parts := messages.filterMap (fun entry =>
        let message := toPlainObject entry
        let content := firstString [jlookup message "content", jlookup message "text",
          jlookup message "message"]
        match content with
        | none => none
        | some c =>
          match firstString [jlookup message "role", jlookup message "speaker"] with
          | some speaker => some (speaker ++ ": " ++ c)
          | none => some c)
      if parts.length > 0 then some (joinSep "\n" parts) else none
    | _ => none

/-- First summary candidate that is present and trim-nonempty (route.ts line
1105). -/
def findTruthySummary : List (Option String) → Option String
  | [] => none
  | some s :: rest => if trimStr s ≠ "" then some s else findTruthySummary rest
  | none :: rest => findTruthySummary rest

/-- The values the webhook handler extracts from a payload before touching
the datastore (route.ts lines 941-1120). -/
structure WebhookInfo where
  payload : List (String × Json)
  dataPayload : List (String × Json)
  conversation : List (String × Json)
  metadata : List (String × Json)
  dynamicVariables : List (String × Json)
  event : Option String
  conversationId : Option String
  lookupIdMeta : Option String
  normalizedPre : Option String
  effectiveStatus : Option String
  analysis : List (String × Json)
  transcriptMessages : List TranscriptMessage
  transcript : String
  summary : Option String
  confidence : Option Int
  endedAt : Option String

/-- Embeds the pure extraction phase of the webhook handler (route.ts lines
941-1120): root resolution, event/status/id probing, phone-number candidates,
transcript/summary/confidence/endedAt extraction. -/
def extractWebhookInfo (payload : List (String × Json)) : WebhookInfo :=
  let dataPayload := toPlainObjectOpt (jlookup payload "data")
  let conversation :=
    match jlookup payload "conversation" with
    | some .null => dataPayload
    | some v => toPlainObject v
    | none => dataPayload
  let metadata :=
    toPlainObjectOpt (jcoalesce (jlookup conversation "metadata") (jlookup payload "metadata"))
  let initiationClientData :=
    toPlainObjectOpt (jcoalesce (jlookup conversation "conversation_initiation_client_data")
      (jlookup dataPayload "conversation_initiation_client_data"))
  let dynamicVariables := toPlainObjectOpt (jlookup initiationClientData "dynamic_variables")
  let event := asString (jcoalesce (jlookup payload "event") (jlookup payload "type"))
  let conversationId := firstString [jlookup conversation "id",
    jlookup conversation "conversation_id", jlookup payload "conversation_id",
    jlookup payload "conversationId", jlookup dataPayload "conversation_id"]
  let lookupIdMeta :=
    match asString (jcoalesce (jlookup metadata "lookupId")
        (jcoalesce (jlookup metadata "lookup_id")
          (jcoalesce (jlookup payload "lookupId") (jlookup payload "lookup_id")))) with
    | some s => some s
    | none =>
      asString (jcoalesce (jlookup dynamicVariables "lookupId")
        (jlookup dynamicVariables "lookup_id"))
  let conversationCustomer := toPlainObjectOpt (jlookup conversation "customer")
  let metadataContact := toPlainObjectOpt (jlookup metadata "contact")
  let payloadContact := toPlainObjectOpt (jlookup dataPayload "contact")
  let normalizedCandidates : List (Option String) :=
    [asString (jlookup metadata "normalized"),
      asString (jlookup dynamicVariables "normalized"),
      asString (jlookup dynamicVariables "normalized_number"),
      asString (jlookup dynamicVariables "target_number"),
      asString (jlookup dynamicVariables "targetNumber"),
      asString (jlookup dynamicVariables "rawInput"),
      asString (jlookup dataPayload "normalized"),
      asString (jlookup dataPayload "phone_number"),
      asString (jlookup conversation "phone_number"),
      asString (jlookup conversationCustomer "number"),
      asString (jlookup conversationCustomer "phone_number"),
      asString (jlookup payload "phone_number"),
      asString (jlookup metadataContact "number"),
      asString (jlookup metadataContact "phone_number"),
      asString (jlookup metadataContact "phoneNumber"),
      asString (jlookup payloadContact "number"),
      asString (jlookup payloadContact "phone_number"),
      asString (jlookup payloadContact "phoneNumber")]
  let normalizedPre := normalizedCandidates.foldl
    (fun acc cand =>
      match acc with
      | some _ => acc
      | none =>
        match cand with
        | some c => parsePhoneNumber c
        | none => none)
    none
  let conversationStatus :=
    asString (jcoalesce (jlookup conversation "status") (jlookup payload "status"))
  let dataPayloadStatus := asString (jlookup dataPayload "status")
  let effectiveStatus :=
    match conversationStatus with
    | some s => some s
    | none => dataPayloadStatus
  let analysis :=
    toPlainObjectOpt (jcoalesce (jlookup conversation "analysis") (jlookup dataPayload "analysis"))
  let transcriptSource : List Json :=
    match jlookup dataPayload "transcript" with
    | some (.arr xs) => xs
    | _ =>
      match jlookup conversation "transcript" with
      | some (.arr xs) => xs
      | _ => []
  let transcriptMessages := toTranscriptMessages transcriptSource
  let transcript :=
    match extractTranscript conversation with
    | some s => s
    | none => joinSep "\n" (transcriptMessages.map (fun m => m.message))
  let summary := findTruthySummary
    [asString (jlookup analysis "transcript_summary"),
      asString (jlookup conversation "summary"),
      asString (jlookup payload "summary"),
      asString (jlookup metadata "summary")]
  let confidence := asNum (jcoalesce (jlookup conversation "confidence")
    (jcoalesce (jlookup analysis "confidence")
      (jcoalesce (jlookup payload "confidence") (jlookup metadata "confidence"))))
  let endedAt := firstString [jlookup conversation "completed_at",
    jlookup conversation "ended_at", jlookup payload "completed_at",
    jlookup payload "ended_at"]
  { payload := payload, dataPayload := dataPayload, conversation := conversation,
    metadata := metadata, dynamicVariables := dynamicVariables, event := event,
    conversationId := conversationId, lookupIdMeta := lookupIdMeta,
    normalizedPre := normalizedPre, effectiveStatus := effectiveStatus,
    analysis := analysis, transcriptMessages := transcriptMessages,
    transcript := transcript, summary := summary, confidence := confidence,
    endedAt := endedAt }

/-! ### Datastore model (src/unnamed/part_012, src/lib/supabase/lookups.ts) -/

/-- Stored phone profile row.  Only the identifying columns are tracked: the
content columns (caller name, tags, aliases, summary ...) are written by the
profile stage but read back only through the identity resolver, which is
embedded separately (`resolveIdentity`); no claim under verification reads
them from the store. -/
structure ProfileRow where
  id : String
  normalized : String

/-- The datastore: the two tables the webhook handler writes, the profile
table, and the clock used by the `updated_at` trigger (part_012 line 145). -/
structure DB where
  lookups : List LookupRec
  attempts : List AttemptRec
  profiles : List ProfileRow
  now : String

/-- `order(key, desc).limit(1).maybeSingle()`: the greatest row by a string
key, first of ties. -/
def maxByKey {α : Type} (key : α → String) : List α → Option α
  | [] => none
  | a :: rest =>
    match maxByKey key rest with
    | none => some a
    | some b => if strGt (key b) (key a) then some b else some a

/-- Embeds `getLookupById` (lookups.ts lines 156-180). -/
def dbGetLookupById (db : DB) (lookupId : String) : Option LookupRec :=
  db.lookups.find? (fun l => l.id == lookupId)

/-- Embeds `getLatestLookupByNormalized` (lookups.ts lines 182-199). -/
def dbGetLatestLookupByNormalized (db : DB) (normalized : String) : Option LookupRec :=
  maxByKey (fun l => l.created_at) (db.lookups.filter (fun l => l.normalized == normalized))

/-- Embeds `getCallAttemptByConversationId` (part_012 lines 251-268). -/
def dbGetCallAttemptByConversationId (db : DB) (conversationId : String) : Option AttemptRec :=
  maxByKey (fun a => a.requested_at)
    (db.attempts.filter (fun a => a.elevenlabs_conversation_id == some conversationId))

/-- Embeds `getLatestCallAttempt` (part_012 lines 185-249).  The result query
orders by `updated_at` and calls `.maybeSingle()` without `limit(1)`;
supabase's `maybeSingle` errors out when more than one row matches, and the
source then returns null — so the function yields a row exactly when the
lookup has a single call attempt. -/
def dbGetLatestCallAttempt (db : DB) (lookupId : String) : Option AttemptRec :=
  match db.attempts.filter (fun a => a.lookup_id == lookupId) with
  | [a] => some a
  | _ => none

/-- The optional update fields of `UpdateCallAttemptInput` (part_012 lines
105-115): the outer `Option` is `undefined` (field omitted from `updates`),
the inner one is SQL null. -/
structure UpdateInput where
  status : Option String := none
  elevenLabsStatus : Option (Option String) := none
  errorMessage : Option (Option String) := none
  payload : Option (Option Json) := none
  transcript : Option (Option String) := none
  summary : Option (Option String) := none
  confidence : Option (Option Int) := none
  endedAt : Option (Option String) := none

/-- `Object.keys(updates).length === 0` guard (part_012 lines 148, 301). -/
def hasUpdates (u : UpdateInput) : Bool :=
  u.status.isSome || u.elevenLabsStatus.isSome || u.errorMessage.isSome ||
    u.payload.isSome || u.transcript.isSome || u.summary.isSome ||
    u.confidence.isSome || u.endedAt.isSome

/-- Whether `new Date(s).toISOString()` would be reached and throw for an
`endedAt` value: a truthy (non-empty) string that the `Date` parser rejects.
`dateParses s` stands for the JavaScript date parser: true exactly when
`new Date(s)` is a valid date. -/
def truthyStrInvalid (dateParses : String → Bool) : Option String → Bool
  | some s => s ≠ "" && !(dateParses s)
  | none => false

/-- The `ended_at` write of the two call-attempt update functions (part_012
lines 140-142 and 293-295): `updates.ended_at = endedAt ? new
Date(endedAt).toISOString() : null`.  Building `updates` precedes every other
step of those functions, so this conversion throws — a `RangeError` on an
invalid date string — before any row is read or written. -/
def updateInputThrows (dateParses : String → Bool) (u : UpdateInput) : Bool :=
  match u.endedAt with
  | some e => truthyStrInvalid dateParses e
  | none => false

/-- Column-level application of an update to one row; the database trigger
stamps `updated_at` with the current clock (part_012 line 145).  The
`ended_at` column is not part of `CallAttemptRecord` and no claim reads it,
so its write is not tracked. -/
def applyUpdates (u : UpdateInput) (now : String) (a : AttemptRec) : AttemptRec :=
  { a with
    status := match u.status with | some s => s | none => a.status
    elevenlabs_status := match u.elevenLabsStatus with | some v => v | none => a.elevenlabs_status
    error_message := match u.errorMessage with | some v => v | none => a.error_message
    payload := match u.payload with | some v => v | none => a.payload
    transcript := match u.transcript with | some v => v | none => a.transcript
    summary := match u.summary with | some v => v | none => a.summary
    confidence := match u.confidence with | some v => v | none => a.confidence
    updated_at := now }

/-- The throw-free remainder of `updateCallAttemptByConversation` (part_012
lines 146-183): update every row carrying the conversation id (the SQL update
commits regardless of the client-side `maybeSingle` outcome), and report the
`lookup_id` exactly when a single row matched. -/
def convUpdateApply (db : DB) (conversationId : String) (u : UpdateInput) :
    Option String × DB :=
  if !hasUpdates u then (none, db)
  else
    let matchedRows := db.attempts.filter (fun a => a.elevenlabs_conversation_id == some conversationId)
    let newAttempts := db.attempts.map (fun a =>
      if a.elevenlabs_conversation_id == some conversationId then applyUpdates u db.now a else a)
    let lookupId : Option String :=
      match matchedRows with
      | [a] => some a.lookup_id
      | _ => none
    (lookupId, { db with attempts := newAttempts })

/-- Embeds `updateCallAttemptByConversation` (part_012 lines 117-183):
building the `updates` object converts `endedAt` first (lines 140-142) and
throws on an invalid truthy date string, before anything else happens; the
rest is `convUpdateApply`. -/
def dbUpdateCallAttemptByConversation (dateParses : String → Bool) (db : DB)
    (conversationId : String) (u : UpdateInput) :
    Except Unit (Option String × DB) :=
  if updateInputThrows dateParses u then .error ()
  else .ok (convUpdateApply db conversationId u)

/-- The throw-free remainder of `updateCallAttemptByLookupId` (part_012 lines
299-368): find the lookup's (single) call attempt and update that row by
id. -/
def lookupAttemptUpdateApply (db : DB) (lookupId : String) (u : UpdateInput) :
    Option AttemptRec × DB :=
  if !hasUpdates u then (none, db)
  else
    match dbGetLatestCallAttempt db lookupId with
    | none => (none, db)
    | some latest =>
      let updated := applyUpdates u db.now latest
      (some updated,
        { db with attempts := db.attempts.map (fun a => if a.id == latest.id then updated else a) })

/-- Embeds `updateCallAttemptByLookupId` (part_012 lines 270-368): the same
`endedAt` conversion throw (lines 293-295) precedes everything; the rest is
`lookupAttemptUpdateApply`. -/
def dbUpdateCallAttemptByLookupId (dateParses : String → Bool) (db : DB)
    (lookupId : String) (u : UpdateInput) :
    Except Unit (Option AttemptRec × DB) :=
  if updateInputThrows dateParses u then .error ()
  else .ok (lookupAttemptUpdateApply db lookupId u)

/-- Embeds `getProfileById` (lookups.ts lines 33-48, identity columns only). -/
def dbGetProfileById (db : DB) (profileId : String) : Option ProfileRow :=
  db.profiles.find? (fun p => p.id == profileId)

/-- Embeds `fetchProfileRecordByNumber` (lookups.ts lines 11-31). -/
def dbFetchProfileRecordByNumber (db : DB) (normalized : String) : Option ProfileRow :=
  db.profiles.find? (fun p => p.normalized == normalized)

/-- Embeds the row effect of `upsertPhoneProfile` (lookups.ts lines 218-...):
one row per normalized number, existing id kept; content columns untracked
(see `ProfileRow`).  Its `last_checked` conversion (lookups.ts line 226)
cannot throw on any path that reaches it: the handler feeds it `endedAt ??
new Date().toISOString()` (route.ts line 1901), and an invalid truthy
`endedAt` already threw at the first call-attempt update, while an empty
`endedAt` is falsy at line 226 and takes the fresh-date branch. -/
def dbUpsertPhoneProfile (db : DB) (normalized : String) : Option String × DB :=
  match dbFetchProfileRecordByNumber db normalized with
  | some p => (some p.id, db)
  | none =>
    let newId := "profile:" ++ normalized
    (some newId, { db with profiles := db.profiles ++ [{ id := newId, normalized := normalized }] })

/-- Rendering of the `LookupStatus` union as the stored status string. -/
def lookupStatusStr : LookupStatus → String
  | .pending => "pending"
  | .calling => "calling"
  | .cached => "cached"
  | .notFound => "not_found"
  | .failed => "failed"

/-- Embeds `updateLookupStatus` (lookups.ts lines 119-154): update the status
column, and the profile id only when the argument was provided. -/
def dbUpdateLookupStatus (db : DB) (lookupId : String) (status : String)
    (profileId : Option (Option String)) : DB :=
  { db with
    lookups := db.lookups.map (fun l =>
      if l.id == lookupId then
        let pid : Option String :=
          match profileId with
          | some p => p
          | none => l.profile_id
        { l with status := status, profile_id := pid }
      else l) }

/-! ### The webhook handler (webhook route.ts lines 909-1973) -/

/-- The response of the webhook route: HTTP status, the `success` flag of the
JSON body, and the optional `note` of the two degenerate 200 responses
(route.ts lines 1353 and 1445). -/
structure WebhookResponse where
  status : Nat
  success : Bool
  note : Option String
deriving Repr, DecidableEq

/-- `enrichedPayload` (route.ts lines 1190-1194): the payload with the
`event`/`type` keys set to the extracted event when present. -/
def enrichPayload (payload : List (String × Json)) (event : Option String) :
    List (String × Json) :=
  match event with
  | some e => setField (setField payload "event" (.str e)) "type" (.str e)
  | none => payload

/-- `payloadForLookupUpdate` (route.ts lines 1359-1363): on completed data
without an explicit event, force the `event`/`type` keys to
`post_call_transcription`. -/
def payloadForLookupUpdateOf (enriched : List (String × Json))
    (event : Option String) (hasCompleted : Bool) : List (String × Json) :=
  match event with
  | some _ => enriched
  | none =>
    if hasCompleted then
      setField (setField enriched "event" (.str "post_call_transcription")) "type"
        (.str "post_call_transcription")
    else enriched

/-- The first update pass of the handler (route.ts lines 1239-1268): update
the call attempt by conversation id, falling back to the resolved lookup id.
An `Except.error` carries the datastore at throw time: both update calls of
the pass receive the same `u` (hence the same `endedAt`), so the `ended_at`
conversion of part_012 line 141 throws, if at all, at the first call (route.ts
line 1241), before any row is written. -/
def webhookAttemptPass (dateParses : String → Bool) (conversationId : String)
    (u : UpdateInput) (eca : Option AttemptRec) (fallbackLookupId : Option String)
    (db0 : DB) : Except DB (Option String × Option AttemptRec × DB) :=
  if conversationId ≠ "" then
    match dbUpdateCallAttemptByConversation dateParses db0 conversationId u with
    | .error _ => .error db0
    | .ok r1 =>
      match r1.1 with
      | some lid => .ok (some lid, eca, r1.2)
      | none =>
        match fallbackLookupId with
        | some rl =>
          match dbUpdateCallAttemptByLookupId dateParses r1.2 rl u with
          | .error _ => .error r1.2
          | .ok r2 =>
            match r2.1 with
            | some att => .ok (some rl, some att, r2.2)
            | none => .ok (none, eca, r2.2)
        | none => .ok (none, eca, r1.2)
  else .ok (none, eca, db0)

/-- The value of `webhookAttemptPass` when the `ended_at` conversion cannot
throw. -/
def webhookAttemptPassPure (conversationId : String) (u : UpdateInput)
    (eca : Option AttemptRec) (fallbackLookupId : Option String) (db0 : DB) :
    Option String × Option AttemptRec × DB :=
  if conversationId ≠ "" then
    let r1 := convUpdateApply db0 conversationId u
    match r1.1 with
    | some lid => (some lid, eca, r1.2)
    | none =>
      match fallbackLookupId with
      | some rl =>
        let r2 := lookupAttemptUpdateApply r1.2 rl u
        match r2.1 with
        | some att => (some rl, some att, r2.2)
        | none => (none, eca, r2.2)
      | none => (none, eca, r1.2)
  else (none, eca, db0)

/-- With a nonempty conversation id and a throwing update input, the first
update pass throws before writing anything. -/
theorem webhookAttemptPass_throw (dateParses : String → Bool)
    (conversationId : String) (u : UpdateInput) (eca : Option AttemptRec)
    (fb : Option String) (db0 : DB) (hcid : conversationId ≠ "")
    (h : updateInputThrows dateParses u = true) :
    webhookAttemptPass dateParses conversationId u eca fb db0 = .error db0 := by
  unfold webhookAttemptPass dbUpdateCallAttemptByConversation
  rw [if_pos hcid, if_pos h]

/-- With a non-throwing update input the first update pass returns its pure
value. -/
theorem webhookAttemptPass_eq (dateParses : String → Bool)
    (conversationId : String) (u : UpdateInput) (eca : Option AttemptRec)
    (fb : Option String) (db0 : DB)
    (h : updateInputThrows dateParses u = false) :
    webhookAttemptPass dateParses conversationId u eca fb db0 =
      .ok (webhookAttemptPassPure conversationId u eca fb db0) := by
  unfold webhookAttemptPass webhookAttemptPassPure
    dbUpdateCallAttemptByConversation dbUpdateCallAttemptByLookupId
  simp only [h, Bool.false_eq_true, if_false]
  repeat first
  | rfl
  | split
  | simp_all

/-- The post-call update plus the mirror update (route.ts lines 1382-1426):
update the resolved lookup's attempt, then — when the latest lookup for the
number differs — rewrite that lookup's attempt with the same update.  Both
calls carry the same `u`, so the `ended_at` conversion throws, if at all, at
the first call, before any row is written. -/
def webhookMirrorPass (dateParses : String → Bool) (eff : String)
    (u : UpdateInput) (normalizedPre : Option String) (db2 : DB) :
    Except DB DB :=
  match dbUpdateCallAttemptByLookupId dateParses db2 eff u with
  | .error _ => .error db2
  | .ok r =>
    match normalizedPre with
    | some n =>
      match dbGetLatestLookupByNormalized r.2 n with
      | some latest =>
        if latest.id ≠ eff then
          match dbUpdateCallAttemptByLookupId dateParses r.2 latest.id u with
          | .error _ => .error r.2
          | .ok r2 => .ok r2.2
        else .ok r.2
      | none => .ok r.2
    | none => .ok r.2

/-- The value of `webhookMirrorPass` when the `ended_at` conversion cannot
throw. -/
def webhookMirrorPassPure (eff : String) (u : UpdateInput)
    (normalizedPre : Option String) (db2 : DB) : DB :=
  let r := lookupAttemptUpdateApply db2 eff u
  match normalizedPre with
  | some n =>
    match dbGetLatestLookupByNormalized r.2 n with
    | some latest =>
      if latest.id ≠ eff then (lookupAttemptUpdateApply r.2 latest.id u).2
      else r.2
    | none => r.2
  | none => r.2

/-- With a throwing update input the mirror pass throws before writing
anything. -/
theorem webhookMirrorPass_throw (dateParses : String → Bool) (eff : String)
    (u : UpdateInput) (np : Option String) (db2 : DB)
    (h : updateInputThrows dateParses u = true) :
    webhookMirrorPass dateParses eff u np db2 = .error db2 := by
  unfold webhookMirrorPass dbUpdateCallAttemptByLookupId
  rw [if_pos h]

/-- With a non-throwing update input the mirror pass returns its pure
value. -/
theorem webhookMirrorPass_eq (dateParses : String → Bool) (eff : String)
    (u : UpdateInput) (np : Option String) (db2 : DB)
    (h : updateInputThrows dateParses u = false) :
    webhookMirrorPass dateParses eff u np db2 =
      .ok (webhookMirrorPassPure eff u np db2) := by
  unfold webhookMirrorPass webhookMirrorPassPure dbUpdateCallAttemptByLookupId
  simp only [h, Bool.false_eq_true, if_false]
  repeat first
  | rfl
  | split
  | simp_all

/-- A constructor-headed `Except` value is an `ok` value. -/
theorem except_ok_exists {α β : Type} (x : α) :
    ∃ p, (Except.ok x : Except β α) = .ok p := ⟨x, rfl⟩

/-- Embeds the datastore phase of the webhook handler (route.ts lines
1058-1948), from lookup resolution through the call-attempt updates, the
mirror update, the profile stage and the final lookup-status write.  The
three 200 responses of the source (lines 1353, 1445, 1950) all carry
`{success:true}` and differ only in their `note`; an `Except.ok` carries
that note together with the final datastore.  An invalid truthy
`completed_at` / `ended_at` string makes a call-attempt update throw
(part_012 lines 140-142) before it writes; the throw escapes to the
handler's outer catch (route.ts line 1951), modelled as `Except.error`
carrying the datastore at throw time.  The caller-name/entity computation of
the profile stage (lines 1496-1929) only affects untracked profile content
columns and is embedded separately as `resolveIdentity`. -/
def processWebhookCore (dateParses : String → Bool) (info : WebhookInfo)
    (conversationId : String) (db0 : DB) : Except DB (Option String × DB) :=
  -- lines 1122-1135: completed-data flag and canonical classification
  let hasCompleted := hasCompletedData info.transcript info.summary
  let lookupStatus := determineLookupStatus info.event info.effectiveStatus
  -- lines 1140-1156: initiation detection
  let eventLower := lowerStr (optStr info.event)
  let isInitiationEvent :=
    strIncludes eventLower "initiation" || strIncludes eventLower "initiate" ||
      strIncludes eventLower "conversation_initiated" ||
      strIncludes eventLower "conversation_initiation" ||
      strIncludes eventLower "call_started" ||
      eventLower == "conversation_initiation_metadata" ||
      eventLower == "conversation_initiation_client_data"
  let isInitiationStatus :=
    match info.effectiveStatus with
    | some s =>
      strIncludes (lowerStr s) "connecting" || strIncludes (lowerStr s) "ringing" ||
        strIncludes (lowerStr s) "dialing" || strIncludes (lowerStr s) "initiating" ||
        strIncludes (lowerStr s) "initiate"
    | none => false
  let hasNoDataYet := !hasCompleted
  -- lines 1196-1235: post-call detection and statuses to write
  let statusLower := lowerStr (optStr info.effectiveStatus)
  let isPostCallEvent :=
    strIncludes eventLower "post_call" || strIncludes eventLower "post-call" ||
      strIncludes eventLower "completed" || strIncludes eventLower "finished" ||
      strIncludes statusLower "completed" || strIncludes statusLower "finished" ||
      strIncludes statusLower "done" || strIncludes statusLower "succeeded" ||
      strIncludes statusLower "success"
  let shouldUpdateByLookupId := hasCompleted || isPostCallEvent
  let hasExplicitPostCallTranscription :=
    strIncludes eventLower "post_call_transcription" ||
      strIncludes eventLower "post-call-transcription"
  let hasExplicitCompletionEvent :=
    strIncludes eventLower "completed" || strIncludes eventLower "finished"
  let statusToSet :=
    if hasCompleted || hasExplicitPostCallTranscription then "post_call_transcription"
    else if hasExplicitCompletionEvent then
      match info.event with
      | some e => e
      | none => "completed"
    else if strIncludes statusLower "completed" || strIncludes statusLower "finished" ||
        strIncludes statusLower "succeeded" || strIncludes statusLower "success" ||
        strIncludes statusLower "done" then
      match info.effectiveStatus with
      | some s => s
      | none => "completed"
    else
      match info.event with
      | some e => e
      | none =>
        match info.effectiveStatus with
        | some s => s
        | none => "received"
  let elevenLabsStatusToSet : Option String :=
    if hasCompleted || isPostCallEvent || hasExplicitPostCallTranscription then
      match info.effectiveStatus with
      | some s => some s
      | none =>
        match info.event with
        | some e => some e
        | none => some "post_call_transcription"
    else info.effectiveStatus
  let enrichedPayload := enrichPayload info.payload info.event
  let fullUpdate : UpdateInput :=
    { status := some statusToSet, elevenLabsStatus := some elevenLabsStatusToSet,
      payload := some (some (.obj enrichedPayload)),
      transcript := some (some info.transcript), summary := some info.summary,
      confidence := some info.confidence, endedAt := some info.endedAt }
  -- lines 1058-1073: lookup id from metadata / dynamic variables
  let step1 : Option String × Option LookupRec :=
    match info.lookupIdMeta with
    | some lid =>
      match dbGetLookupById db0 lid with
      | some l => (some lid, some l)
      | none => (none, none)
    | none => (none, none)
  -- lines 1162-1174: existing call attempt by conversation id
  let existingCallAttempt0 :=
    if conversationId ≠ "" then dbGetCallAttemptByConversationId db0 conversationId else none
  let step2 : Option String × Option LookupRec :=
    match existingCallAttempt0 with
    | some att =>
      if att.lookup_id ≠ "" && step1.1 = none then
        (some att.lookup_id,
          match dbGetLookupById db0 att.lookup_id with
          | some l => some l
          | none => step1.2)
      else step1
    | none => step1
  -- lines 1176-1186: fall back to the latest lookup for the number
  let step3 : Option String × Option LookupRec :=
    if step2.1 = none then
      match info.normalizedPre with
      | some n =>
        match dbGetLatestLookupByNormalized db0 n with
        | some ll => (some ll.id, some ll)
        | none => step2
      | none => step2
    else step2
  -- line 1188
  let isStillScheduled :=
    match existingCallAttempt0 with
    | some att => att.status == "scheduled"
    | none => false
  -- lines 1239-1268: first update pass, keyed by conversation then lookup id
  match webhookAttemptPass dateParses conversationId fullUpdate
      existingCallAttempt0 step3.1 db0 with
  | .error e => .error e
  | .ok pass1 =>
    let lookupIdFromCall := pass1.1
    let db1 := pass1.2.2
    -- lines 1270-1273: refetch the attempt after a successful update
    let _existingCallAttempt1 :=
      match lookupIdFromCall with
      | some _ => dbGetCallAttemptByConversationId db1 conversationId
      | none => pass1.2.1
    -- lines 1275-1283: adopt the lookup id learned from the call attempt
    let step4 : Option String × Option LookupRec :=
      match lookupIdFromCall with
      | some lfc =>
        if step3.1 ≠ some lfc then
          (some lfc,
            if ((match step3.2 with | some lr => lr.id ≠ lfc | none => true) : Bool) then
              match dbGetLookupById db1 lfc with
              | some l => some l
              | none => step3.2
            else step3.2)
        else step3
      | none => step3
    -- lines 1293-1334: initiation update (skipped on completed/post-call
    -- data).  The source passes no `endedAt` here (route.ts 1302, 1319), so
    -- this update's conversion never throws and the call is rendered by its
    -- throw-free remainder `convUpdateApply`
    let db2 :=
      if (isInitiationEvent || isInitiationStatus || isStillScheduled ||
            (hasNoDataYet && !hasCompleted)) &&
          conversationId ≠ "" && !hasCompleted && !isPostCallEvent then
        let stsInit :=
          match info.event with
          | some e => e
          | none =>
            match info.effectiveStatus with
            | some s => s
            | none => if isStillScheduled then "initiating" else "connecting"
        let initUpdate : UpdateInput :=
          { status := some stsInit, elevenLabsStatus := some info.effectiveStatus,
            payload := some (some (.obj info.payload)) }
        match (match step4.1 with | some x => some x | none => lookupIdFromCall) with
        | some _ => (convUpdateApply db1 conversationId initUpdate).2
        | none =>
          match lookupIdFromCall with
          | some _ => (convUpdateApply db1 conversationId initUpdate).2
          | none => db1
      else db1
    -- lines 1336-1350: effective lookup id
    let eff0 : Option String :=
      match step4.1 with
      | some x => some x
      | none => lookupIdFromCall
    let effPair : Option String × Option LookupRec :=
      match eff0 with
      | some _ => (eff0, step4.2)
      | none =>
        match info.normalizedPre with
        | some n =>
          match dbGetLatestLookupByNormalized db2 n with
          | some ll =>
            (some ll.id,
              if ((match step4.2 with | some lr => lr.id ≠ ll.id | none => true) : Bool) then some ll
              else step4.2)
          | none => (none, step4.2)
        | none => (none, step4.2)
    match effPair.1 with
    | none =>
      -- line 1353
      .ok (some "Lookup id missing", db2)
    | some eff =>
      -- lines 1358-1426: post-call update by lookup id plus the mirror
      -- update, followed by the tail of the handler on the resulting store
      let payloadForLookupUpdate :=
        payloadForLookupUpdateOf enrichedPayload info.event hasCompleted
      let lookupUpdate : UpdateInput :=
        { fullUpdate with payload := some (some (.obj payloadForLookupUpdate)) }
      let handlerTail : DB → Option String × DB := fun db3 =>
        -- lines 1440-1446: fetch the lookup row
        let lookup? : Option LookupRec :=
          match effPair.2 with
          | some lr => if lr.id == eff then some lr else dbGetLookupById db3 eff
          | none => dbGetLookupById db3 eff
        match lookup? with
        | none =>
          -- line 1445
          (some "Lookup not found", db3)
        | some lookup =>
          -- lines 1448-1467: normalized number for the profile row
          let normalizedSource : String :=
            match asString (jlookup info.metadata "normalized") with
            | some s => s
            | none => lookup.normalized
          let normalizedNumber := parsePhoneNumber normalizedSource
          -- lines 1469, 1486-1930: profile stage (identity content in
          -- `resolveIdentity`; only the row identity is tracked here)
          let profileStage : Option String × DB :=
            match lookupStatus, normalizedNumber with
            | some .cached, some n =>
              let existingProfile :=
                match lookup.profile_id with
                | some pid => dbGetProfileById db3 pid
                | none => dbFetchProfileRecordByNumber db3 n
              let profileId0 : Option String :=
                match lookup.profile_id with
                | some pid => some pid
                | none =>
                  match existingProfile with
                  | some p => some p.id
                  | none => none
              let upsert := dbUpsertPhoneProfile db3 n
              match upsert.1 with
              | some upId => (some upId, upsert.2)
              | none => (profileId0, upsert.2)
            | _, _ => (lookup.profile_id, db3)
          -- lines 1932-1948: lookup status write
          let db4 :=
            match lookupStatus with
            | some ls =>
              dbUpdateLookupStatus profileStage.2 eff (lookupStatusStr ls)
                (match profileStage.1 with
                  | some pid => some (some pid)
                  | none => none)
            | none => profileStage.2
          -- line 1950
          (none, db4)
      if shouldUpdateByLookupId then
        match webhookMirrorPass dateParses eff lookupUpdate info.normalizedPre db2 with
        | .error e => .error e
        | .ok db3 => .ok (handlerTail db3)
      else .ok (handlerTail db2)

/-- The response of the handler tail: a thrown update lands in the outer
catch (route.ts lines 1951-1972) and answers 500 with no `success` flag; a
normal return answers 200 `{success:true}` with the branch's note. -/
def coreOutcome : Except DB (Option String × DB) → WebhookResponse × DB
  | .error dbE => ({ status := 500, success := false, note := none }, dbE)
  | .ok (note, db2) => ({ status := 200, success := true, note := note }, db2)

/-- Embeds the webhook `POST` handler (route.ts lines 909-1973) given the
signature verification outcome and the parsed body (`none` models a JSON
parse error; an empty raw body parses as the empty object, line 930). -/
def postHandlerBody (dateParses : String → Bool) (info : WebhookInfo)
    (db : DB) : WebhookResponse × DB :=
  match info.conversationId with
  | none => ({ status := 400, success := false, note := none }, db)
  | some cid =>
    if cid = "" then ({ status := 400, success := false, note := none }, db)
    else coreOutcome (processWebhookCore dateParses info cid db)

def postHandler (dateParses : String → Bool) (sigOk : Bool)
    (body : Option Json) (db : DB) : WebhookResponse × DB :=
  if !sigOk then ({ status := 401, success := false, note := none }, db)
  else
    match body with
    | none => ({ status := 400, success := false, note := none }, db)
    | some json =>
      postHandlerBody dateParses (extractWebhookInfo (toPlainObject json)) db

/-- The payload of the C1 counterexample: vendor status `error` alongside a
non-empty transcript, no event name. -/
def c1payload : Json :=
  .obj [("conversation", .obj [("id", .str "conv1"), ("status", .str "error"),
    ("transcript", .str "Goedemiddag, met Jan de Vries")])]

/-- C1 (counterexample): the handler extracts a non-empty transcript from
this payload (so completed data is present), yet the canonical classification
it computes is the failed state — refuting "never failed when a non-empty
transcript is present". -/
theorem C1_counterexample :
    (extractWebhookInfo (toPlainObject c1payload)).transcript =
        "Goedemiddag, met Jan de Vries" ∧
      hasCompletedData (extractWebhookInfo (toPlainObject c1payload)).transcript
        (extractWebhookInfo (toPlainObject c1payload)).summary = true ∧
      determineLookupStatus (extractWebhookInfo (toPlainObject c1payload)).event
        (extractWebhookInfo (toPlainObject c1payload)).effectiveStatus =
        some .failed := by
  refine ⟨by decide, by decide, by decide⟩

/-- The requests the webhook handler rejects as malformed: unparseable JSON,
or no truthy conversation id found by any candidate path. -/
def webhookMalformed (body : Option Json) : Bool :=
  match body with
  | none => true
  | some json =>
    match (extractWebhookInfo (toPlainObject json)).conversationId with
    | none => true
    | some cid => cid = ""

/-- A nonempty conversation id and an invalid truthy `endedAt` make the
handler core throw at the first call-attempt update (route.ts line 1241),
before any datastore write. -/
theorem processWebhookCore_throws (dateParses : String → Bool)
    (info : WebhookInfo) (conversationId : String) (db0 : DB)
    (hcid : conversationId ≠ "")
    (h : truthyStrInvalid dateParses info.endedAt = true) :
    processWebhookCore dateParses info conversationId db0 = .error db0 := by
  simp only [processWebhookCore, webhookAttemptPass_throw, updateInputThrows,
    h, hcid, ne_eq, not_false_eq_true]

/-- Without an invalid truthy `endedAt` no update of the handler core throws:
the core returns normally on every payload and datastore. -/
theorem processWebhookCore_ok (dateParses : String → Bool)
    (info : WebhookInfo) (conversationId : String) (db0 : DB)
    (h : truthyStrInvalid dateParses info.endedAt = false) :
    ∃ p, processWebhookCore dateParses info conversationId db0 = .ok p := by
  unfold processWebhookCore
  lift_lets
  extract_lets hasCompleted lookupStatus eventLower isInitiationEvent
    isInitiationStatus hasNoDataYet statusLower isPostCallEvent
    shouldUpdateByLookupId hasExplicitPostCallTranscription
    hasExplicitCompletionEvent statusToSet elevenLabsStatusToSet
    enrichedPayload fullUpdate step1 existingCallAttempt0 step2 step3
    isStillScheduled
  have h1 : updateInputThrows dateParses fullUpdate = false := h
  rw [webhookAttemptPass_eq _ _ _ _ _ _ h1]
  simp -zeta only []
  lift_lets
  extract_lets stsInit initUpdate payloadU lookupUpdate lookupIdFromCall db1
    step4 db2 eff0 effPair
  have h2 : updateInputThrows dateParses lookupUpdate = false := h
  split
  · exact except_ok_exists _
  · rename_i eff heq
    lift_lets
    extract_lets handlerTail
    split
    · rw [webhookMirrorPass_eq _ _ _ _ _ h2]
      simp -zeta only []
      exact except_ok_exists _
    · exact except_ok_exists _

/-- C5 scenario: a well-formed payload whose `completed_at` is not a date. -/
def c5badBody : Json :=
  .obj [("conversation_id", .str "c1"), ("completed_at", .str "not-a-date")]

/-- C5 scenario: the same payload with a valid `completed_at`. -/
def c5okBody : Json :=
  .obj [("conversation_id", .str "c1"),
    ("completed_at", .str "2024-01-01T00:00:00Z")]

/-- A concrete stand-in for the JavaScript date parser, accepting exactly the
ISO timestamp carried by `c5okBody`; `new Date("not-a-date")` is an invalid
date. -/
def c5dateParses : String → Bool := fun s => s = "2024-01-01T00:00:00Z"

/-- C5 scenario datastore. -/
def c5db : DB where
  lookups := []
  attempts := []
  profiles := []
  now := "2024-01-02T00:00:00Z"

/-- C5 (counterexample): an authenticated, well-formed payload — parseable
JSON with a truthy conversation id — that the handler answers 500, not 200:
its `completed_at` string is not a valid date, so the first call-attempt
update throws a `RangeError` (part_012 line 141) and the outer catch responds
500.  This refutes "every other authenticated payload is answered 200 with
success: true". -/
theorem C5_counterexample :
    webhookMalformed (some c5badBody) = false ∧
      (postHandler c5dateParses true (some c5badBody) c5db).1.status = 500 ∧
      (postHandler c5dateParses true (some c5badBody) c5db).1.success = false := by
  refine ⟨by decide, by decide, by decide⟩

/-- C5 (amended): with a passing signature the handler answers 400 exactly on
malformed requests — unparseable JSON or no truthy conversation id; a
well-formed payload carrying a truthy `completed_at`/`ended_at` string that
is not a valid date is answered 500 with the datastore untouched (the date
conversion throws before any write); every other well-formed payload is
answered 200 with `success: true`. -/
theorem C5_response_characterization (dateParses : String → Bool)
    (body : Option Json) (db : DB) :
    ((postHandler dateParses true body db).1.status = 400 ↔
        webhookMalformed body = true) ∧
      (∀ j, body = some j → webhookMalformed body = false →
        truthyStrInvalid dateParses
            (extractWebhookInfo (toPlainObject j)).endedAt = true →
        postHandler dateParses true body db =
          ({ status := 500, success := false, note := none }, db)) ∧
      (∀ j, body = some j → webhookMalformed body = false →
        truthyStrInvalid dateParses
            (extractWebhookInfo (toPlainObject j)).endedAt = false →
        (postHandler dateParses true body db).1.status = 200 ∧
          (postHandler dateParses true body db).1.success = true) := by
  cases body with
  | none =>
    refine ⟨by simp [postHandler, webhookMalformed], ?_, ?_⟩ <;>
      exact fun j hj => absurd hj (by simp)
  | some json =>
    cases hc : (extractWebhookInfo (toPlainObject json)).conversationId with
    | none =>
      have hm : webhookMalformed (some json) = true := by
        simp [webhookMalformed, hc]
      refine ⟨by simp [postHandler, postHandlerBody, hc, hm], ?_, ?_⟩ <;>
        · intro j hj hmf
          rw [hm] at hmf
          cases hmf
    | some cid =>
      by_cases hcid : cid = ""
      · have hm : webhookMalformed (some json) = true := by
          simp [webhookMalformed, hc, hcid]
        refine ⟨by simp [postHandler, postHandlerBody, hc, hcid, hm], ?_, ?_⟩ <;>
          · intro j hj hmf
            rw [hm] at hmf
            cases hmf
      · have hm : webhookMalformed (some json) = false := by
          simp [webhookMalformed, hc, hcid]
        refine ⟨?_, ?_, ?_⟩
        · rw [hm]
          simp only [postHandler, postHandlerBody, hc, Bool.not_true, if_false]
          rw [if_neg hcid]
          constructor
          · intro h400
            exfalso
            cases hE : processWebhookCore dateParses
                (extractWebhookInfo (toPlainObject json)) cid db with
            | error e =>
              rw [hE] at h400
              simp [coreOutcome] at h400
            | ok p =>
              obtain ⟨note, db2⟩ := p
              rw [hE] at h400
              simp [coreOutcome] at h400
          · intro ht
            cases ht
        · intro j hj hmf hthrow
          injection hj with hj2
          subst hj2
          have hcore := processWebhookCore_throws dateParses
            (extractWebhookInfo (toPlainObject json)) cid db hcid hthrow
          simp [postHandler, postHandlerBody, hc, hcid, hcore, coreOutcome]
        · intro j hj hmf hok
          injection hj with hj2
          subst hj2
          obtain ⟨p, hcore⟩ := processWebhookCore_ok dateParses
            (extractWebhookInfo (toPlainObject json)) cid db hok
          obtain ⟨note, db2⟩ := p
          refine ⟨?_, ?_⟩ <;>
            simp [postHandler, postHandlerBody, hc, hcid, hcore, coreOutcome]

/-- C5 witness: the amended theorem applied at the two concrete payloads —
the invalid-date one is answered 500 with the datastore unchanged, the
valid-date one 200. -/
theorem C5_response_witness :
    postHandler c5dateParses true (some c5badBody) c5db =
        ({ status := 500, success := false, note := none }, c5db) ∧
      (postHandler c5dateParses true (some c5okBody) c5db).1.status = 200 :=
  ⟨(C5_response_characterization c5dateParses (some c5badBody) c5db).2.1
      c5badBody rfl (by decide) (by decide),
    ((C5_response_characterization c5dateParses (some c5okBody) c5db).2.2
      c5okBody rfl (by decide) (by decide)).1⟩

/-- C10 scenario: the older lookup for the number, carrying the conversation. -/
def c10lookup1 : LookupRec where
  id := "l1"
  normalized := "+31612345678"
  raw_input := "0612345678"
  status := "calling"
  profile_id := none
  created_at := "2024-01-01T00:00:00Z"

/-- C10 scenario: a newer lookup for the same number, not referenced by the
webhook. -/
def c10lookup2 : LookupRec where
  id := "l2"
  normalized := "+31612345678"
  raw_input := "0612345678"
  status := "calling"
  profile_id := none
  created_at := "2024-01-02T00:00:00Z"

/-- C10 scenario: the call attempt of `l1`, carrying the conversation id the
webhook names. -/
def c10attempt1 : AttemptRec where
  id := "a1"
  lookup_id := "l1"
  status := "initiated"
  elevenlabs_conversation_id := some "c1"
  elevenlabs_status := none
  error_message := none
  transcript := none
  summary := none
  confidence := none
  payload := none
  requested_at := "2024-01-01T00:00:01Z"
  updated_at := "2024-01-01T00:00:01Z"

/-- C10 scenario: the call attempt of the unrelated newer lookup `l2`. -/
def c10attempt2 : AttemptRec where
  id := "a2"
  lookup_id := "l2"
  status := "scheduled"
  elevenlabs_conversation_id := none
  elevenlabs_status := none
  error_message := none
  transcript := none
  summary := none
  confidence := none
  payload := none
  requested_at := "2024-01-02T00:00:01Z"
  updated_at := "2024-01-02T00:00:01Z"

/-- C10 scenario datastore. -/
def c10db : DB where
  lookups := [c10lookup1, c10lookup2]
  attempts := [c10attempt1, c10attempt2]
  profiles := []
  now := "2024-01-02T00:00:10Z"

/-- C10 scenario: the extracted webhook values of a post-call event naming
conversation `c1`, with arbitrary transcript, summary and confidence. -/
def c10info (t : String) (sm : Option String) (c : Option Int) : WebhookInfo where
  payload := []
  dataPayload := []
  conversation := []
  metadata := []
  dynamicVariables := []
  event := some "post_call_transcription"
  conversationId := some "c1"
  lookupIdMeta := none
  normalizedPre := some "+31612345678"
  effectiveStatus := some "done"
  analysis := []
  transcriptMessages := []
  transcript := t
  summary := sm
  confidence := c
  endedAt := none

/-- The expected post-webhook state of `l2`'s call attempt: the same
status/transcript/summary/confidence update the resolved lookup received. -/
def c10expected (t : String) (sm : Option String) (c : Option Int) : AttemptRec where
  id := "a2"
  lookup_id := "l2"
  status := "post_call_transcription"
  elevenlabs_conversation_id := none
  elevenlabs_status := some "done"
  error_message := none
  transcript := some t
  summary := sm
  confidence := c
  payload := some (.obj [("event", .str "post_call_transcription"),
    ("type", .str "post_call_transcription")])
  requested_at := "2024-01-02T00:00:01Z"
  updated_at := "2024-01-02T00:00:10Z"

/-- C10: webhook processing of a post-call event is not confined to the
resolved lookup.  In this scenario the conversation id resolves to lookup
`l1`, while the most recently created lookup for the extracted number is the
distinct `l2`; for every transcript, summary and confidence carried by the
webhook (and every date parser — the scenario carries no `endedAt`), the
handler also rewrites `l2`'s (most recent) call attempt with the same
status/transcript/summary/confidence update. -/
theorem C10_webhook_mutates_other_lookups_attempt (dateParses : String → Bool)
    (t : String) (sm : Option String) (c : Option Int) :
    (dbGetCallAttemptByConversationId c10db "c1").map (fun a => a.lookup_id) =
        some "l1" ∧
      (dbGetLatestLookupByNormalized c10db "+31612345678").map (fun l => l.id) =
        some "l2" ∧
      dbGetLatestCallAttempt
          (postHandlerBody dateParses (c10info t sm c) c10db).2 "l2" =
        some (c10expected t sm c) := by
  refine ⟨by decide, by decide, ?_⟩
  show dbGetLatestCallAttempt
      (coreOutcome (processWebhookCore dateParses (c10info t sm c) "c1" c10db)).2 "l2" =
    some (c10expected t sm c)
  unfold processWebhookCore
  generalize hb : hasCompletedData (c10info t sm c).transcript (c10info t sm c).summary = b
  cases b with
  | false => rfl
  | true => rfl
